import Mathlib

set_option maxHeartbeats 1000000

namespace Fluke

/-!
Shallow embedding of the fluke HTTP/2 server connection engine
(`crates/fluke/src/h2/server.rs`) and of the buffer pool (`src/bufpool.rs`).

Conventions of the embedding:
* machine integers become `Nat` with explicit bounds / modular reduction
  where overflow matters;
* the bounded mpsc frame channel feeding the processor becomes an explicit
  list of `(Frame, payload)` pairs (`Chan`); an empty list models a closed
  channel;
* per-stream channels are identified by numeric ids; a send on such a
  channel is recorded as an effect;
* the HPACK codec is an external collaborator (spec sections 1 and 6); the
  combination of `decode_with_cb`, the header callback and the request
  post-processing is abstracted into a `DecodeOutcome`-valued parameter,
  while the byte sequence handed to the decoder is recorded as an effect;
* Rust panics (`unreachable!`, `unwrap` failures) are modelled by the
  distinguished terminal outcome `Term.abort`.
-/

/-- HTTP/2 frame types, each carrying the flag bits the server code
inspects (`FrameType` and the per-type flag enums in the parse module). -/
inductive FrameType where
  | data (endStream padded : Bool)
  | headers (endStream endHeaders padded priorityFlag : Bool)
  | priority
  | rstStream
  | settings (ack : Bool)
  | pushPromise
  | ping (ack : Bool)
  | goAway
  | windowUpdate
  | continuation (endHeaders : Bool)
  | unknown (ty : Nat)
deriving DecidableEq

/-- A parsed frame header: type with flags, declared payload length, and
stream id (`struct Frame` of the parse module; `len` is a `u32`,
`stream_id` a 31-bit id). -/
structure Frame where
  frameType : FrameType
  len : Nat
  streamId : Nat
deriving DecidableEq

/-- Stream-scoped errors answered with RST_STREAM (`H2StreamError`). -/
inductive H2StreamError where
  | StreamClosed
  | RefusedStream
  | TrailersNotEndStream
  | InvalidPriorityFrameSize (frameSize : Nat)
  | InvalidRstStreamFrameSize (frameSize : Nat)
  | ReceivedRstStream
deriving DecidableEq

/-- Connection-scoped errors that abort the connection with a GOAWAY
(`H2ConnectionError`).  `PrioritySpecInvalid` stands for the parse-error
report produced when a priority payload under a HEADERS frame does not
parse (the concrete variant lives in the types module, outside src). -/
inductive H2ConnectionError where
  | FrameTooLarge (frameSize maxFrameSize : Nat)
  | IncompleteFrame (frameSize : Nat)
  | PaddedFrameEmpty
  | PaddedFrameTooShort (paddingLength frameSize : Nat)
  | ReadError
  | WriteError
  | StreamClosed (streamId : Nat)
  | HeadersInvalidPriority (streamId : Nat)
  | PrioritySpecInvalid
  | ClientSidShouldBeOdd
  | ClientSidShouldBeNumericallyIncreasing (streamId lastStreamId : Nat)
  | ExpectedContinuationFrame (streamId : Nat) (frameType : Option FrameType)
  | ExpectedContinuationForStream (streamId continuationStreamId : Nat)
  | RstStreamForUnknownStream (streamId : Nat)
  | SettingsWithNonZeroStreamId (streamId : Nat)
  | SettingsAckWithPayload (len : Nat)
  | ClientSentPushPromise
  | PingFrameWithNonZeroStreamId (streamId : Nat)
  | PingFrameInvalidLength (len : Nat)
  | GoAwayWithNonZeroStreamId (streamId : Nat)
  | WindowUpdateInvalidLength (len : Nat)
  | WindowUpdateZeroIncrement
  | WindowUpdateForUnknownStream (streamId : Nat)
  | UnexpectedContinuationFrame (streamId : Nat)
  | CompressionError
deriving DecidableEq

/-- Per-stream lifecycle state (`enum StreamState`).  The incoming sender
and the outgoing state are modelled by numeric channel ids so that the
theorems can state that a transition keeps them. -/
inductive StreamState where
  | Open (incoming outgoing : Nat)
  | HalfClosedRemote (outgoing : Nat)
  | HalfClosedLocal (incoming : Nat)
  | Transition
deriving DecidableEq

/-- The stream table, an association list with `HashMap` semantics (keys
are unique in every state the code builds). -/
abbrev StreamMap := List (Nat × StreamState)

/-- `HashMap::get` on the stream table. -/
def getStream : StreamMap → Nat → Option StreamState
  | [], _ => none
  | (k, v) :: rest, id => if k = id then some v else getStream rest id

/-- `HashMap::remove` on the stream table. -/
def removeStream : StreamMap → Nat → StreamMap
  | [], _ => []
  | (k, w) :: rest, id =>
    if k = id then removeStream rest id else (k, w) :: removeStream rest id

/-- In-place update of an existing entry (`get_mut` followed by
assignment). -/
def setStream : StreamMap → Nat → StreamState → StreamMap
  | [], _, _ => []
  | (k, w) :: rest, id, v =>
    if k = id then (id, v) :: setStream rest id v
    else (k, w) :: setStream rest id v

/-- `HashMap::insert`: replaces an existing entry, otherwise adds one. -/
def insertStream (m : StreamMap) (id : Nat) (v : StreamState) : StreamMap :=
  if (getStream m id).isSome then setStream m id v else (id, v) :: m

/-- Connection settings (`Settings` of the parse module; the parse module
is not under src, so the field set and the defaults follow the spec:
header_table_size 4096, max_concurrent_streams 32, max_frame_size 16384,
plus the remaining standard fields). -/
structure Settings where
  headerTableSize : Nat
  enablePush : Bool
  maxConcurrentStreams : Nat
  initialWindowSize : Nat
  maxFrameSize : Nat
  maxHeaderListSize : Nat
deriving DecidableEq

/-- Modelled from the spec: default settings values (spec section 3). -/
def Settings.default : Settings :=
  { headerTableSize := 4096
    enablePush := true
    maxConcurrentStreams := 32
    initialWindowSize := 65535
    maxFrameSize := 16384
    maxHeaderListSize := 0 }

/-- `ConnState`: settings for both sides, the stream table and the last
accepted stream id. -/
structure ConnState where
  selfSettings : Settings
  peerSettings : Settings
  streams : StreamMap
  lastStreamId : Nat
deriving DecidableEq

/-- The processor context (`ServerContext` fields the embedding tracks):
the connection state, the goaway flag, the encoder dynamic-table size set
on peer SETTINGS, the shared `max_frame_size` atomic read by the deframer,
and a supply of fresh channel ids for newly accepted streams. -/
structure Ctx where
  state : ConnState
  goawayRecv : Bool
  encoderTableSize : Nat
  maxFrameSizeAtomic : Nat
  nextChan : Nat
deriving DecidableEq

/-- An item sent on a stream's incoming channel
(`Result<PieceOrTrailers, StreamError>`). -/
inductive IncomingItem where
  | piece (bytes : List Nat)
  | trailers
  | errReceivedRstStream
deriving DecidableEq

/-- Effects of one processing step: frames handed to the writer (the frame
with its final `len` plus the payload bytes), sends on per-stream
incoming channels, and the byte sequences handed to the HPACK decoder. -/
structure Effects where
  written : List (Frame × List Nat)
  sent : List (Nat × IncomingItem)
  decoded : List (List Nat)
deriving DecidableEq

def Effects.empty : Effects := ⟨[], [], []⟩

def Effects.append (a b : Effects) : Effects :=
  ⟨a.written ++ b.written, a.sent ++ b.sent, a.decoded ++ b.decoded⟩

/-- How a processing step terminated: normally, with a connection error,
or in a Rust panic (`unreachable!` / failed `unwrap`). -/
inductive Term where
  | ok
  | connErr (e : H2ConnectionError)
  | abort
deriving DecidableEq

/-- The frame channel between deframer and processor, as the list of
frames still to be received; `[]` models a closed channel. -/
abbrev Chan := List (Frame × List Nat)

/-- Result of a writer-side operation. -/
structure WRes where
  cx : Ctx
  effs : Effects
  term : Term
deriving DecidableEq

/-- Result of a processor-side operation. -/
structure PRes where
  cx : Ctx
  effs : Effects
  rx : Chan
  term : Term
deriving DecidableEq

def u32Max : Nat := 4294967295

/-- Big-endian bytes of a 32-bit value. -/
def be32 (n : Nat) : List Nat :=
  [n / 16777216 % 256, n / 65536 % 256, n / 256 % 256, n % 256]

/-- Big-endian bytes of a 24-bit value. -/
def be24 (n : Nat) : List Nat :=
  [n / 65536 % 256, n / 256 % 256, n % 256]

/-- Modelled from the spec: the wire code of each frame type (spec
section 4.3 / RFC 9113); the codec lives in the parse module, outside
src. -/
def frameTypeByte : FrameType → Nat
  | .data _ _ => 0
  | .headers _ _ _ _ => 1
  | .priority => 2
  | .rstStream => 3
  | .settings _ => 4
  | .pushPromise => 5
  | .ping _ => 6
  | .goAway => 7
  | .windowUpdate => 8
  | .continuation _ => 9
  | .unknown ty => ty % 256

/-- Modelled from the spec: the flag byte of a frame (RFC 9113 flag
bits), as serialized by the parse module (outside src). -/
def flagsByte : FrameType → Nat
  | .data es p => (if es then 1 else 0) + (if p then 8 else 0)
  | .headers es eh p pr =>
      (if es then 1 else 0) + (if eh then 4 else 0) +
      (if p then 8 else 0) + (if pr then 32 else 0)
  | .settings ack => if ack then 1 else 0
  | .ping ack => if ack then 1 else 0
  | .continuation eh => if eh then 4 else 0
  | _ => 0

/-- Modelled from the spec: `Frame::into_roll` (parse module, outside
src) serializes the 9-byte header `{length:24, type:8, flags:8,
reserved:1, stream_id:31}` big-endian (spec section 4.3); the 24-bit
length field holds the stored length reduced modulo 2^24. -/
def frameHeaderBytes (f : Frame) : List Nat :=
  be24 (f.len % 16777216) ++ [frameTypeByte f.frameType, flagsByte f.frameType] ++
    be32 (f.streamId % 2147483648)

/-- The value of the 24-bit length field of a serialized frame header. -/
def lenField (hdr : List Nat) : Nat :=
  hdr.getD 0 0 * 65536 + hdr.getD 1 0 * 256 + hdr.getD 2 0

/-- Modelled from the spec: the RFC 9113 error code sent for each
stream error (`as_known_error_code`, types module, outside src; spec
section 6 lists the emitted codes). -/
def errorCodeRepr : H2StreamError → Nat
  | .StreamClosed => 5
  | .RefusedStream => 7
  | .TrailersNotEndStream => 1
  | .InvalidPriorityFrameSize _ => 6
  | .InvalidRstStreamFrameSize _ => 6
  | .ReceivedRstStream => 1

/-- Replace the stream table of a context (helper for the frequent
`self.state.streams` mutations). -/
def withStreams (cx : Ctx) (m : StreamMap) : Ctx :=
  { cx with state := { cx.state with streams := m } }

/-- Replace the last accepted stream id of a context. -/
def withLastStreamId (cx : Ctx) (id : Nat) : Ctx :=
  { cx with state := { cx.state with lastStreamId := id } }

/-- The stream-state bookkeeping `write_frame` performs before writing:
a DATA frame with END_STREAM moves an `Open` stream to `HalfClosedLocal`
(keeping `incoming`) and removes the entry in every other state
(server.rs lines 425-450). -/
def dataTransition (cx : Ctx) (frame : Frame) : Ctx :=
  match frame.frameType with
  | .data es _ =>
    if es then
      match getStream cx.state.streams frame.streamId with
      | some (.Open incoming _) =>
        withStreams cx
          (setStream cx.state.streams frame.streamId (.HalfClosedLocal incoming))
      | some _ => withStreams cx (removeStream cx.state.streams frame.streamId)
      | none => cx
    else cx
  | _ => cx

/-- `ServerContext::write_frame` (server.rs lines 417-486): performs the
stream-state transition, overwrites `frame.len` with the payload length
(failing with `FrameTooLarge` when it does not fit a `u32`), and hands
the frame and payload to the transport as one (vectored) write. -/
def write_frame (cx : Ctx) (frame : Frame) (payload : List Nat) : WRes :=
  if payload.length > u32Max then
    ⟨dataTransition cx frame, Effects.empty,
      .connErr (.FrameTooLarge (payload.length % 4294967296) u32Max)⟩
  else
    ⟨dataTransition cx frame,
      ⟨[({ frame with len := payload.length }, payload)], [], []⟩, .ok⟩

/-- `ServerContext::rst` (server.rs lines 834-855): drop the stream and
send RST_STREAM carrying the error code. -/
def rst (cx : Ctx) (streamId : Nat) (e : H2StreamError) : WRes :=
  write_frame (withStreams cx (removeStream cx.state.streams streamId))
    { frameType := .rstStream, len := 4, streamId := streamId }
    (be32 (errorCodeRepr e))

/-- Modelled from the spec: client-initiated stream ids are odd, server
ids even (spec section 3); `StreamId::is_server_initiated` lives in the
parse module, outside src. -/
def isServerInitiated (id : Nat) : Bool := id % 2 = 0

/-- A parsed priority specification (`PrioritySpec`). -/
structure PrioritySpec where
  exclusive : Bool
  streamDependency : Nat
  weight : Nat
deriving DecidableEq

/-- Modelled from the spec: `PrioritySpec::parse` (parse module, outside
src) reads the RFC 9113 priority payload, a 1-bit exclusive flag, a
31-bit stream dependency and an 8-bit weight, returning the rest of the
input. -/
def parsePrioritySpec : List Nat → Option (List Nat × PrioritySpec)
  | b0 :: b1 :: b2 :: b3 :: b4 :: rest =>
    some (rest,
      ⟨decide (b0 ≥ 128), (b0 % 128) * 16777216 + b1 * 65536 + b2 * 256 + b3, b4⟩)
  | _ => none

/-- Modelled from the spec: `parse_reserved_and_u31` (parse module,
outside src) splits four bytes into the reserved bit and a 31-bit
big-endian value. -/
def reservedAndU31 (b : List Nat) : Bool × Nat :=
  (decide (b.getD 0 0 ≥ 128),
    (b.getD 0 0 % 128) * 16777216 + b.getD 1 0 * 65536 + b.getD 2 0 * 256 + b.getD 3 0)

/-- Modelled from the spec: applying a single settings pair onto a
`Settings` value, keyed by the RFC 9113 identifiers. -/
def applySetting (s : Settings) (ident v : Nat) : Settings :=
  match ident with
  | 1 => { s with headerTableSize := v }
  | 2 => { s with enablePush := v ≠ 0 }
  | 3 => { s with maxConcurrentStreams := v }
  | 4 => { s with initialWindowSize := v }
  | 5 => { s with maxFrameSize := v }
  | 6 => { s with maxHeaderListSize := v }
  | _ => s

/-- Modelled from the spec: `Settings::parse` (parse module, outside
src) reads a sequence of 6-byte (identifier:16, value:32) pairs applied
onto the supplied settings; any other payload shape fails to parse. -/
def parseSettings : List Nat → Settings → Option Settings
  | [], s => some s
  | i0 :: i1 :: v0 :: v1 :: v2 :: v3 :: rest, s =>
    parseSettings rest
      (applySetting s (i0 * 256 + i1) (v0 * 16777216 + v1 * 65536 + v2 * 256 + v3))
  | _, _ => none

/-- Whether a header block is request headers or trailers
(`HeadersOrTrailers`). -/
inductive HeadersOrTrailers where
  | Headers
  | Trailers
deriving DecidableEq

/-- Whether `read_headers` processes or skips the header block it reads
(`ReadHeadersMode`). -/
inductive ReadHeadersMode where
  | Process
  | Skip
deriving DecidableEq

/-- Abstraction of one HPACK `decode_with_cb` invocation together with
the header callback and the request/trailers post-processing: the HPACK
codec is an external collaborator (spec sections 1 and 6).  `ok` means
the block decoded and validated; `compressionError` a decoder failure
(`CompressionError`); `malformed` any of the callback / post-processing
panics in server.rs lines 943-1048. -/
inductive DecodeOutcome where
  | ok
  | compressionError
  | malformed
deriving DecidableEq

/-- The continuation-reading loop of `read_headers` (server.rs lines
884-922): pulls frames off the channel, requiring CONTINUATION frames
for the same stream until one carries END_HEADERS; a closed channel or
any other frame is a connection error. -/
def collectContinuations (streamId : Nat) (fragments : List (List Nat)) :
    Chan → Except H2ConnectionError (List (List Nat) × Chan)
  | [] => .error (.ExpectedContinuationFrame streamId none)
  | (cf, cp) :: rest =>
    if streamId ≠ cf.streamId then
      .error (.ExpectedContinuationForStream streamId cf.streamId)
    else
      match cf.frameType with
      | .continuation endH =>
        if endH then .ok (fragments ++ [cp], rest)
        else collectContinuations streamId (fragments ++ [cp]) rest
      | other => .error (.ExpectedContinuationFrame streamId (some other))

/-- The tail of `read_headers` once the fragments are in hand (server.rs
lines 927-1137): skip mode returns immediately; otherwise the
concatenated fragments are handed to the HPACK decoder exactly once, and
on success either a new stream is inserted (headers) or the trailers are
delivered on the stream's incoming channel and the entry dropped. -/
def finishHeaders (dec : List Nat → DecodeOutcome) (cx : Ctx)
    (hot : HeadersOrTrailers) (mode : ReadHeadersMode) (endStream : Bool)
    (streamId : Nat) (fragments : List (List Nat)) (rest : Chan) : PRes :=
  match mode with
  | .Skip => ⟨cx, Effects.empty, rest, .ok⟩
  | .Process =>
    match dec fragments.flatten with
    | .compressionError =>
      ⟨cx, ⟨[], [], [fragments.flatten]⟩, rest, .connErr .CompressionError⟩
    | .malformed => ⟨cx, ⟨[], [], [fragments.flatten]⟩, rest, .abort⟩
    | .ok =>
      match hot with
      | .Headers =>
        ⟨{ withStreams cx
              (insertStream cx.state.streams streamId
                (if endStream then .HalfClosedRemote (cx.nextChan + 1)
                 else .Open cx.nextChan (cx.nextChan + 1))) with
            nextChan := cx.nextChan + 2 },
          ⟨[], [], [fragments.flatten]⟩, rest, .ok⟩
      | .Trailers =>
        match getStream cx.state.streams streamId with
        | some (.Open incoming _) =>
          ⟨withStreams cx (removeStream cx.state.streams streamId),
            ⟨[], [(incoming, .trailers)], [fragments.flatten]⟩, rest, .ok⟩
        | _ => ⟨cx, ⟨[], [], [fragments.flatten]⟩, rest, .abort⟩

/-- `ServerContext::read_headers` (server.rs lines 857-1137): collect
the header-block fragments (a single payload when END_HEADERS is set,
otherwise the payload followed by CONTINUATION payloads), then process
or skip them. -/
def read_headers (dec : List Nat → DecodeOutcome) (cx : Ctx)
    (hot : HeadersOrTrailers) (mode : ReadHeadersMode)
    (endStream endHeaders : Bool) (streamId : Nat) (payload : List Nat)
    (rx : Chan) : PRes :=
  if endHeaders then
    finishHeaders dec cx hot mode endStream streamId [payload] rx
  else
    match collectContinuations streamId [payload] rx with
    | .error e => ⟨cx, Effects.empty, [], .connErr e⟩
    | .ok (fragments, rest) =>
      finishHeaders dec cx hot mode endStream streamId fragments rest

/-- The DATA arm of `process_frame` (server.rs lines 495-539): the
stream must exist; the payload is forwarded on the incoming channel;
END_STREAM moves `Open` to `HalfClosedRemote` (keeping `outgoing`) and
removes a `HalfClosedLocal` entry; DATA on `HalfClosedRemote` is
answered with RST_STREAM(StreamClosed) without failing the
connection. -/
def processData (cx : Ctx) (frame : Frame) (endStream : Bool)
    (payload : List Nat) (rx : Chan) : PRes :=
  match getStream cx.state.streams frame.streamId with
  | none => ⟨cx, Effects.empty, rx, .connErr (.StreamClosed frame.streamId)⟩
  | some (.Open incoming outgoing) =>
    if endStream then
      ⟨withStreams cx
          (setStream cx.state.streams frame.streamId (.HalfClosedRemote outgoing)),
        ⟨[], [(incoming, .piece payload)], []⟩, rx, .ok⟩
    else ⟨cx, ⟨[], [(incoming, .piece payload)], []⟩, rx, .ok⟩
  | some (.HalfClosedLocal incoming) =>
    if endStream then
      ⟨withStreams cx (removeStream cx.state.streams frame.streamId),
        ⟨[], [(incoming, .piece payload)], []⟩, rx, .ok⟩
    else ⟨cx, ⟨[], [(incoming, .piece payload)], []⟩, rx, .ok⟩
  | some (.HalfClosedRemote _) =>
    match rst cx frame.streamId .StreamClosed with
    | ⟨cx1, eff1, t⟩ => ⟨cx1, eff1, rx, t⟩
  | some .Transition => ⟨cx, Effects.empty, rx, .abort⟩

/-- The HEADERS dispatch of `process_frame` after the optional priority
spec has been stripped (server.rs lines 555-642): no entry means a new
stream (odd id, strictly increasing, capacity check, RST_STREAM
RefusedStream and skip when full); an `Open`/`HalfClosedLocal` entry
means trailers (END_STREAM required, otherwise
RST_STREAM(TrailersNotEndStream) and skip); `HalfClosedRemote` is a
connection error. -/
def processHeadersInner (dec : List Nat → DecodeOutcome) (cx : Ctx)
    (endStream endHeaders : Bool) (streamId : Nat) (payload : List Nat)
    (rx : Chan) : PRes :=
  match getStream cx.state.streams streamId with
  | none =>
    if isServerInitiated streamId then
      ⟨cx, Effects.empty, rx, .connErr .ClientSidShouldBeOdd⟩
    else if streamId < cx.state.lastStreamId then
      ⟨cx, Effects.empty, rx,
        .connErr (.ClientSidShouldBeNumericallyIncreasing streamId cx.state.lastStreamId)⟩
    else if streamId = cx.state.lastStreamId then
      ⟨cx, Effects.empty, rx, .connErr (.StreamClosed streamId)⟩
    else
      if cx.state.streams.length + 1 > cx.state.selfSettings.maxConcurrentStreams then
        match rst cx streamId .RefusedStream with
        | ⟨cx1, eff1, .ok⟩ =>
          match read_headers dec cx1 .Headers .Skip endStream endHeaders streamId payload rx with
          | ⟨cx2, eff2, rx2, t2⟩ => ⟨cx2, eff1.append eff2, rx2, t2⟩
        | ⟨cx1, eff1, t⟩ => ⟨cx1, eff1, rx, t⟩
      else
        read_headers dec (withLastStreamId cx streamId) .Headers .Process
          endStream endHeaders streamId payload rx
  | some (.Open _ _) =>
    if endStream then
      read_headers dec cx .Trailers .Process endStream endHeaders streamId payload rx
    else
      match rst cx streamId .TrailersNotEndStream with
      | ⟨cx1, eff1, .ok⟩ =>
        match read_headers dec cx1 .Trailers .Skip endStream endHeaders streamId payload rx with
        | ⟨cx2, eff2, rx2, t2⟩ => ⟨cx2, eff1.append eff2, rx2, t2⟩
      | ⟨cx1, eff1, t⟩ => ⟨cx1, eff1, rx, t⟩
  | some (.HalfClosedLocal _) =>
    if endStream then
      read_headers dec cx .Trailers .Process endStream endHeaders streamId payload rx
    else
      match rst cx streamId .TrailersNotEndStream with
      | ⟨cx1, eff1, .ok⟩ =>
        match read_headers dec cx1 .Trailers .Skip endStream endHeaders streamId payload rx with
        | ⟨cx2, eff2, rx2, t2⟩ => ⟨cx2, eff1.append eff2, rx2, t2⟩
      | ⟨cx1, eff1, t⟩ => ⟨cx1, eff1, rx, t⟩
  | some (.HalfClosedRemote _) =>
    ⟨cx, Effects.empty, rx, .connErr (.StreamClosed streamId)⟩
  | some .Transition => ⟨cx, Effects.empty, rx, .abort⟩

/-- The HEADERS arm of `process_frame` (server.rs lines 540-642): with
the PRIORITY flag the priority spec is parsed off the payload first and
a self-dependency is the connection error `HeadersInvalidPriority`. -/
def processHeaders (dec : List Nat → DecodeOutcome) (cx : Ctx)
    (frame : Frame) (endStream endHeaders priorityFlag : Bool)
    (payload : List Nat) (rx : Chan) : PRes :=
  if priorityFlag then
    match parsePrioritySpec payload with
    | none => ⟨cx, Effects.empty, rx, .connErr .PrioritySpecInvalid⟩
    | some (rest, priSpec) =>
      if priSpec.streamDependency = frame.streamId then
        ⟨cx, Effects.empty, rx, .connErr (.HeadersInvalidPriority frame.streamId)⟩
      else
        processHeadersInner dec cx endStream endHeaders frame.streamId rest rx
  else
    processHeadersInner dec cx endStream endHeaders frame.streamId payload rx

/-- The PRIORITY arm of `process_frame` (server.rs lines 644-665). -/
def processPriority (cx : Ctx) (frame : Frame) (payload : List Nat)
    (rx : Chan) : PRes :=
  match parsePrioritySpec payload with
  | none =>
    match rst cx frame.streamId (.InvalidPriorityFrameSize frame.len) with
    | ⟨cx1, eff1, t⟩ => ⟨cx1, eff1, rx, t⟩
  | some (_, priSpec) =>
    if priSpec.streamDependency = frame.streamId then
      ⟨cx, Effects.empty, rx, .connErr (.HeadersInvalidPriority frame.streamId)⟩
    else ⟨cx, Effects.empty, rx, .ok⟩

/-- The RST_STREAM arm of `process_frame` (server.rs lines 667-708). -/
def processRstStream (cx : Ctx) (frame : Frame) (rx : Chan) : PRes :=
  if frame.len ≠ 4 then
    match rst cx frame.streamId (.InvalidRstStreamFrameSize frame.len) with
    | ⟨cx1, eff1, t⟩ => ⟨cx1, eff1, rx, t⟩
  else
    match getStream cx.state.streams frame.streamId with
    | none => ⟨cx, Effects.empty, rx, .connErr (.RstStreamForUnknownStream frame.streamId)⟩
    | some ss =>
      match ss with
      | .Open incoming _ =>
        ⟨withStreams cx (removeStream cx.state.streams frame.streamId),
          ⟨[], [(incoming, .errReceivedRstStream)], []⟩, rx, .ok⟩
      | .HalfClosedLocal incoming =>
        ⟨withStreams cx (removeStream cx.state.streams frame.streamId),
          ⟨[], [(incoming, .errReceivedRstStream)], []⟩, rx, .ok⟩
      | .HalfClosedRemote _ =>
        ⟨withStreams cx (removeStream cx.state.streams frame.streamId),
          Effects.empty, rx, .ok⟩
      | .Transition => ⟨cx, Effects.empty, rx, .abort⟩

/-- The SETTINGS arm of `process_frame` (server.rs lines 709-747): ACK
must carry no payload; otherwise the settings are parsed, the HPACK
encoder table resized, the peer settings replaced and an ACK emitted.
The shared `max_frame_size` atomic is not touched. -/
def processSettings (cx : Ctx) (frame : Frame) (ack : Bool)
    (payload : List Nat) (rx : Chan) : PRes :=
  if frame.streamId ≠ 0 then
    ⟨cx, Effects.empty, rx, .connErr (.SettingsWithNonZeroStreamId frame.streamId)⟩
  else if ack then
    if payload ≠ [] then
      ⟨cx, Effects.empty, rx, .connErr (.SettingsAckWithPayload payload.length)⟩
    else ⟨cx, Effects.empty, rx, .ok⟩
  else
    match parseSettings payload Settings.default with
    | none => ⟨cx, Effects.empty, rx, .connErr .ReadError⟩
    | some settings =>
      match write_frame
          { cx with
              state := { cx.state with peerSettings := settings }
              encoderTableSize := settings.headerTableSize }
          { frameType := .settings true, len := 0, streamId := 0 } [] with
      | ⟨cx1, eff1, t⟩ => ⟨cx1, eff1, rx, t⟩

/-- The PING arm of `process_frame` (server.rs lines 751-772). -/
def processPing (cx : Ctx) (frame : Frame) (ack : Bool) (payload : List Nat)
    (rx : Chan) : PRes :=
  if frame.streamId ≠ 0 then
    ⟨cx, Effects.empty, rx, .connErr (.PingFrameWithNonZeroStreamId frame.streamId)⟩
  else if frame.len ≠ 8 then
    ⟨cx, Effects.empty, rx, .connErr (.PingFrameInvalidLength frame.len)⟩
  else if ack then ⟨cx, Effects.empty, rx, .ok⟩
  else
    match write_frame cx
        { frameType := .ping true, len := payload.length, streamId := 0 } payload with
    | ⟨cx1, eff1, t⟩ => ⟨cx1, eff1, rx, t⟩

/-- The WINDOW_UPDATE arm of `process_frame` (server.rs lines 785-815). -/
def processWindowUpdate (cx : Ctx) (frame : Frame) (payload : List Nat)
    (rx : Chan) : PRes :=
  if payload.length ≠ 4 then
    ⟨cx, Effects.empty, rx, .connErr (.WindowUpdateInvalidLength payload.length)⟩
  else if (reservedAndU31 payload).2 = 0 then
    ⟨cx, Effects.empty, rx, .connErr .WindowUpdateZeroIncrement⟩
  else if frame.streamId = 0 then ⟨cx, Effects.empty, rx, .ok⟩
  else
    match getStream cx.state.streams frame.streamId with
    | none =>
      ⟨cx, Effects.empty, rx, .connErr (.WindowUpdateForUnknownStream frame.streamId)⟩
    | some _ => ⟨cx, Effects.empty, rx, .ok⟩

/-- `ServerContext::process_frame` (server.rs lines 488-831), dispatching
on the frame type. -/
def process_frame (dec : List Nat → DecodeOutcome) (cx : Ctx) (frame : Frame)
    (payload : List Nat) (rx : Chan) : PRes :=
  match frame.frameType with
  | .data endStream _ => processData cx frame endStream payload rx
  | .headers endStream endHeaders _ priorityFlag =>
    processHeaders dec cx frame endStream endHeaders priorityFlag payload rx
  | .priority => processPriority cx frame payload rx
  | .rstStream => processRstStream cx frame rx
  | .settings ack => processSettings cx frame ack payload rx
  | .pushPromise => ⟨cx, Effects.empty, rx, .connErr .ClientSentPushPromise⟩
  | .ping ack => processPing cx frame ack payload rx
  | .goAway =>
    if frame.streamId ≠ 0 then
      ⟨cx, Effects.empty, rx, .connErr (.GoAwayWithNonZeroStreamId frame.streamId)⟩
    else ⟨{ cx with goawayRecv := true }, Effects.empty, rx, .ok⟩
  | .windowUpdate => processWindowUpdate cx frame payload rx
  | .continuation _ =>
    ⟨cx, Effects.empty, rx, .connErr (.UnexpectedContinuationFrame frame.streamId)⟩
  | .unknown _ => ⟨cx, Effects.empty, rx, .ok⟩

/-- Whether the deframer treats the frame as padded (server.rs lines
300-304): only DATA and HEADERS with the PADDED flag. -/
def framePadded : FrameType → Bool
  | .data _ padded => padded
  | .headers _ _ padded _ => padded
  | _ => false

/-- One iteration of `deframe_loop` after the frame header has been
parsed (server.rs lines 264-332): the length check against the shared
`max_frame_size`, then padding handling on the `frame.len` payload bytes
`raw`; the surviving `(frame, payload)` pair is what is sent to the
processor. -/
def deframe_step (maxFrameSize : Nat) (frame : Frame) (raw : List Nat) :
    Except H2ConnectionError (Frame × List Nat) :=
  if frame.len > maxFrameSize then
    .error (.FrameTooLarge frame.len maxFrameSize)
  else if framePadded frame.frameType then
    match raw with
    | [] => .error .PaddedFrameEmpty
    | b :: restBytes =>
      if restBytes.length < b then .error (.PaddedFrameTooShort b frame.len)
      else .ok (frame, restBytes.take (restBytes.length - b))
  else .ok (frame, raw)

/-! Buffer pool (`src/bufpool.rs`): a free list of block indices plus a
reference count per block. -/

/-- The mutable state behind the pool (`BufPoolInner`): the free list
(`VecDeque`, head = front) and the per-block reference counts. -/
structure PoolState where
  free : List Nat
  refCounts : List Int
deriving DecidableEq

/-- The reference count of block `i`. -/
def getRc (p : PoolState) (i : Nat) : Int := p.refCounts.getD i 0

/-- `BufPool::alloc` (bufpool.rs lines 56-70): pop a free index and
increment its reference count; an empty free list is `OutOfMemory`. -/
def poolAlloc (p : PoolState) : Option (PoolState × Nat) :=
  match p.free with
  | [] => none
  | i :: rest => some (⟨rest, p.refCounts.set i (p.refCounts.getD i 0 + 1)⟩, i)

/-- `BufPool::inc` (bufpool.rs lines 72-77), run by `Buf::clone`. -/
def poolInc (p : PoolState) (i : Nat) : PoolState :=
  ⟨p.free, p.refCounts.set i (p.refCounts.getD i 0 + 1)⟩

/-- `BufPool::dec` (bufpool.rs lines 79-87), run by dropping a `BufMut`
or a `Buf`: decrement and push the index back on the free list exactly
when the count reaches zero. -/
def poolDec (p : PoolState) (i : Nat) : PoolState :=
  if p.refCounts.getD i 0 - 1 = 0 then
    ⟨p.free ++ [i], p.refCounts.set i (p.refCounts.getD i 0 - 1)⟩
  else ⟨p.free, p.refCounts.set i (p.refCounts.getD i 0 - 1)⟩

/-- `BufMut::freeze` (bufpool.rs lines 160-173): the handle is forgotten
and the index reused for the `Buf`, leaving the pool state — in
particular the reference count — untouched. -/
def poolFreeze (p : PoolState) : PoolState := p

/-- `n` successive `Buf::clone` calls on block `i`. -/
def cloneN (p : PoolState) (i : Nat) : Nat → PoolState
  | 0 => p
  | n + 1 => cloneN (poolInc p i) i n

/-- `n` successive handle drops on block `i`. -/
def dropN (p : PoolState) (i : Nat) : Nat → PoolState
  | 0 => p
  | n + 1 => dropN (poolDec p i) i n

/-- A well-formed run of CONTINUATION frames for stream `sid`: every
fragment is carried by a CONTINUATION frame for that stream, and only
the last one has END_HEADERS.  Used to state the reassembly theorems. -/
def contRun (sid : Nat) : List (List Nat) → Chan
  | [] => []
  | [p] => [({ frameType := .continuation true, len := p.length, streamId := sid }, p)]
  | p :: q :: rest =>
    ({ frameType := .continuation false, len := p.length, streamId := sid }, p) ::
      contRun sid (q :: rest)

/-! Association-list lemmas for the stream table. -/

lemma getStream_removeStream (m : StreamMap) (id : Nat) :
    getStream (removeStream m id) id = none := by
  induction m with
  | nil => rfl
  | cons kv rest ih =>
    obtain ⟨k, w⟩ := kv
    by_cases h : k = id
    · simpa [removeStream, h] using ih
    · simpa [removeStream, h, getStream] using ih

lemma getStream_removeStream_ne (m : StreamMap) (id sid : Nat) (h : sid ≠ id) :
    getStream (removeStream m id) sid = getStream m sid := by
  induction m with
  | nil => rfl
  | cons kv rest ih =>
    obtain ⟨k, w⟩ := kv
    by_cases hk : k = id
    · subst hk
      simp only [removeStream, if_pos rfl, getStream, show ¬(k = sid) by omega,
        if_neg, ite_false]
      simpa using ih
    · by_cases hs : k = sid
      · subst hs
        simp [removeStream, hk, getStream]
      · simp only [removeStream, hk, if_neg, ite_false, getStream, hs]
        simpa [hk, hs] using ih

lemma getStream_setStream (m : StreamMap) (id : Nat) (v : StreamState) :
    getStream (setStream m id v) id = (getStream m id).map (fun _ => v) := by
  induction m with
  | nil => rfl
  | cons kv rest ih =>
    obtain ⟨k, w⟩ := kv
    by_cases h : k = id
    · subst h
      simp [setStream, getStream]
    · simp only [setStream, h, if_neg, ite_false, getStream]
      simpa [h] using ih

lemma getStream_setStream_ne (m : StreamMap) (id sid : Nat) (v : StreamState)
    (h : sid ≠ id) :
    getStream (setStream m id v) sid = getStream m sid := by
  induction m with
  | nil => rfl
  | cons kv rest ih =>
    obtain ⟨k, w⟩ := kv
    by_cases hk : k = id
    · subst hk
      simp only [setStream, if_pos rfl, getStream, show ¬(k = sid) by omega,
        show ¬(k = sid) by omega, if_neg, ite_false]
      simpa using ih
    · by_cases hs : k = sid
      · subst hs
        simp [setStream, hk, getStream]
      · simp only [setStream, hk, if_neg, ite_false, getStream, hs]
        simpa [hk, hs] using ih

lemma getStream_insertStream (m : StreamMap) (id : Nat) (v : StreamState) :
    getStream (insertStream m id v) id = some v := by
  unfold insertStream
  by_cases h : (getStream m id).isSome
  · rcases Option.isSome_iff_exists.1 h with ⟨w, hw⟩
    simp [h, getStream_setStream, hw]
  · simp [h, getStream]

lemma getStream_insertStream_ne (m : StreamMap) (id sid : Nat) (v : StreamState)
    (h : sid ≠ id) :
    getStream (insertStream m id v) sid = getStream m sid := by
  unfold insertStream
  by_cases hs : (getStream m id).isSome
  · simp [hs, getStream_setStream_ne m id sid v h]
  · have hid : ¬(id = sid) := by omega
    simp [hs, getStream, hid]

lemma length_setStream (m : StreamMap) (id : Nat) (v : StreamState) :
    (setStream m id v).length = m.length := by
  induction m with
  | nil => rfl
  | cons kv rest ih =>
    obtain ⟨k, w⟩ := kv
    by_cases h : k = id <;> simp [setStream, h, ih]

lemma length_removeStream_le (m : StreamMap) (id : Nat) :
    (removeStream m id).length ≤ m.length := by
  induction m with
  | nil => simp [removeStream]
  | cons kv rest ih =>
    obtain ⟨k, w⟩ := kv
    by_cases h : k = id <;> simp [removeStream, h] <;> omega

lemma length_insertStream_le (m : StreamMap) (id : Nat) (v : StreamState) :
    (insertStream m id v).length ≤ m.length + 1 := by
  unfold insertStream
  by_cases h : (getStream m id).isSome
  · simp [h, length_setStream]
  · simp [h]

/-! Buffer-pool lemmas. -/

lemma getD_set_self (l : List Int) (i : Nat) (v : Int) (h : i < l.length) :
    (l.set i v).getD i 0 = v := by
  simp [List.getD_eq_getElem?_getD, List.getElem?_set_eq_of_lt _ h]

lemma cloneN_spec (i : Nat) : ∀ (n : Nat) (p : PoolState),
    i < p.refCounts.length →
    (cloneN p i n).free = p.free ∧
    (cloneN p i n).refCounts.length = p.refCounts.length ∧
    getRc (cloneN p i n) i = getRc p i + n := by
  intro n
  induction n with
  | zero => intro p h; simp [cloneN]
  | succ n ih =>
    intro p h
    have hlen : (poolInc p i).refCounts.length = p.refCounts.length := by
      simp [poolInc]
    obtain ⟨h1, h2, h3⟩ := ih (poolInc p i) (by omega)
    refine ⟨by simpa [cloneN, poolInc] using h1, by simp [cloneN, hlen, h2], ?_⟩
    have hrc : getRc (poolInc p i) i = getRc p i + 1 := by
      simpa [poolInc, getRc] using getD_set_self p.refCounts i (p.refCounts.getD i 0 + 1) h
    rw [show cloneN p i (n + 1) = cloneN (poolInc p i) i n from rfl, h3, hrc]
    push_cast
    ring

lemma dropN_drain (i : Nat) : ∀ (k : Nat) (p : PoolState),
    i < p.refCounts.length → getRc p i = (k : Int) + 1 →
    dropN p i (k + 1) = ⟨p.free ++ [i], p.refCounts.set i 0⟩ := by
  intro k
  induction k with
  | zero =>
    intro p h hrc
    have hc : p.refCounts.getD i 0 - 1 = 0 := by
      simp only [getRc] at hrc
      omega
    simp only [dropN, poolDec, hc, if_pos]
  | succ k ih =>
    intro p h hrc
    have hc : ¬(p.refCounts.getD i 0 - 1 = 0) := by
      simp only [getRc] at hrc
      push_cast at hrc
      omega
    have hstep : poolDec p i = ⟨p.free, p.refCounts.set i (p.refCounts.getD i 0 - 1)⟩ := by
      simp only [poolDec]
      rw [if_neg hc]
    have hlen : (poolDec p i).refCounts.length = p.refCounts.length := by
      rw [hstep]; simp
    have hrc2 : getRc (poolDec p i) i = (k : Int) + 1 := by
      rw [hstep]
      simp only [getRc] at hrc ⊢
      rw [getD_set_self p.refCounts i _ h]
      omega
    have := ih (poolDec p i) (by omega) hrc2
    rw [show dropN p i (k + 1 + 1) = dropN (poolDec p i) i (k + 1) from rfl, this, hstep]
    simp [List.set_set]

/-- C9: buffer-pool round trip.  From any pool state whose head free
index is unreferenced, `alloc` pops the index and sets its refcount to
1, `freeze` leaves the pool untouched, each clone increments the count,
and after every handle is dropped the count is back to 0 and the index
is pushed back exactly once, so the free-list count returns to its
starting value with no double free. -/
theorem c9_bufpool_roundtrip (p : PoolState) (i : Nat) (rest : List Nat) (n : Nat)
    (hfree : p.free = i :: rest) (hlen : i < p.refCounts.length)
    (hzero : getRc p i = 0) (hnodup : i ∉ rest) :
    poolAlloc p = some (⟨rest, p.refCounts.set i 1⟩, i) ∧
    getRc ⟨rest, p.refCounts.set i 1⟩ i = 1 ∧
    poolFreeze ⟨rest, p.refCounts.set i 1⟩ = ⟨rest, p.refCounts.set i 1⟩ ∧
    getRc (cloneN ⟨rest, p.refCounts.set i 1⟩ i n) i = 1 + (n : Int) ∧
    (cloneN ⟨rest, p.refCounts.set i 1⟩ i n).free = rest ∧
    getRc (dropN (cloneN ⟨rest, p.refCounts.set i 1⟩ i n) i (n + 1)) i = 0 ∧
    (dropN (cloneN ⟨rest, p.refCounts.set i 1⟩ i n) i (n + 1)).free = rest ++ [i] ∧
    (dropN (cloneN ⟨rest, p.refCounts.set i 1⟩ i n) i (n + 1)).free.length =
      p.free.length ∧
    (dropN (cloneN ⟨rest, p.refCounts.set i 1⟩ i n) i (n + 1)).free.count i = 1 := by
  have hz : p.refCounts.getD i 0 = 0 := hzero
  have halloc : poolAlloc p = some (⟨rest, p.refCounts.set i 1⟩, i) := by
    simp only [poolAlloc, hfree]
    rw [hz]
    norm_num
  have hlen1 : i < (p.refCounts.set i 1).length := by simpa using hlen
  have hrc1 : getRc ⟨rest, p.refCounts.set i 1⟩ i = 1 := by
    simpa [getRc] using getD_set_self p.refCounts i 1 hlen
  obtain ⟨hcf, hcl, hcr⟩ :=
    cloneN_spec i n ⟨rest, p.refCounts.set i 1⟩ (by simpa using hlen)
  have hrcn : getRc (cloneN ⟨rest, p.refCounts.set i 1⟩ i n) i = (n : Int) + 1 := by
    rw [hcr, hrc1]; ring
  have hdrop :=
    dropN_drain i n (cloneN ⟨rest, p.refCounts.set i 1⟩ i n)
      (by rw [hcl]; simpa using hlen) hrcn
  have hcount : rest.count i = 0 := List.count_eq_zero.2 hnodup
  refine ⟨halloc, hrc1, rfl, by rw [hcr, hrc1], hcf, ?_, ?_, ?_, ?_⟩
  · rw [hdrop]
    have : i < (cloneN ⟨rest, p.refCounts.set i 1⟩ i n).refCounts.length := by
      rw [hcl]; simpa using hlen
    simpa [getRc] using getD_set_self _ i 0 this
  · rw [hdrop, hcf]
  · rw [hdrop, hcf]
    simp [hfree]
  · rw [hdrop, hcf]
    simp [List.count_append, hcount]

/-- Witness for C9: a three-block pool, two clones. -/
theorem c9_bufpool_roundtrip_witness :
    poolAlloc ⟨[0, 1, 2], [0, 0, 0]⟩ = some (⟨[1, 2], [1, 0, 0]⟩, 0) ∧
    getRc (dropN (cloneN ⟨[1, 2], [1, 0, 0]⟩ 0 2) 0 3) 0 = 0 ∧
    (dropN (cloneN ⟨[1, 2], [1, 0, 0]⟩ 0 2) 0 3).free = [1, 2, 0] := by
  obtain ⟨h1, _, _, _, _, h6, h7, _, _⟩ :=
    c9_bufpool_roundtrip ⟨[0, 1, 2], [0, 0, 0]⟩ 0 [1, 2] 2 rfl (by decide)
      (by decide) (by decide)
  have hset : ([0, 0, 0] : List Int).set 0 1 = [1, 0, 0] := by decide
  rw [hset] at h1 h6 h7
  exact ⟨h1, h6, h7⟩

/-- C7: for every DATA or HEADERS frame carrying the PADDED flag (and
passing the size check), the first payload byte is the pad length: a pad
length at least the payload length is the connection error
`PaddedFrameTooShort`, and otherwise the pad-length byte and the
trailing pad bytes are stripped before the `(frame, payload)` pair is
forwarded to the processor. -/
theorem c7_padding_handling (maxFrameSize : Nat) (frame : Frame) (b : Nat)
    (restBytes : List Nat) (hpad : framePadded frame.frameType = true)
    (hlen : frame.len ≤ maxFrameSize) :
    (b ≥ (b :: restBytes).length →
      deframe_step maxFrameSize frame (b :: restBytes) =
        .error (.PaddedFrameTooShort b frame.len)) ∧
    (b < (b :: restBytes).length →
      deframe_step maxFrameSize frame (b :: restBytes) =
        .ok (frame, restBytes.take (restBytes.length - b))) := by
  have h1 : ¬(frame.len > maxFrameSize) := by omega
  constructor <;> intro h
  · have h2 : restBytes.length < b := by simp at h; omega
    simp [deframe_step, h1, hpad, h2]
  · have h2 : ¬(restBytes.length < b) := by simp at h; omega
    simp [deframe_step, h1, hpad, h2]

/-- Witness for C7 at a concrete padded DATA frame. -/
theorem c7_padding_handling_witness :
    framePadded (FrameType.data false true) = true ∧ (3 : Nat) ≤ 10 ∧
    deframe_step 10 ⟨.data false true, 3, 1⟩ [1, 7, 8] =
      .ok (⟨.data false true, 3, 1⟩, [7]) := by
  refine ⟨by decide, by decide, ?_⟩
  have h :=
    (c7_padding_handling 10 ⟨.data false true, 3, 1⟩ 1 [7, 8] (by decide)
      (by decide)).2 (by decide)
  simpa using h

lemma collect_contRun (sid : Nat) : ∀ (conts : List (List Nat)), conts ≠ [] →
    ∀ (acc : List (List Nat)) (rest2 : Chan),
    collectContinuations sid acc (contRun sid conts ++ rest2) =
      .ok (acc ++ conts, rest2) := by
  intro conts
  induction conts with
  | nil => intro h; contradiction
  | cons p tail ih =>
    intro _ acc rest2
    cases tail with
    | nil => simp [contRun, collectContinuations]
    | cons q r =>
      simp only [contRun, List.cons_append, collectContinuations, ne_eq,
        not_true_eq_false, if_false, ite_false, Bool.false_eq_true,
        List.append_eq]
      rw [ih (by simp) (acc ++ [p]) rest2]
      simp

lemma finishHeaders_decoded (dec : List Nat → DecodeOutcome) (cx : Ctx)
    (hot : HeadersOrTrailers) (es : Bool) (sid : Nat)
    (frags : List (List Nat)) (rest : Chan) :
    (finishHeaders dec cx hot .Process es sid frags rest).effs.decoded =
      [frags.flatten] ∧
    (finishHeaders dec cx hot .Process es sid frags rest).rx = rest := by
  unfold finishHeaders
  cases h : dec frags.flatten with
  | compressionError => simp
  | malformed => simp
  | ok =>
    cases hot with
    | Headers => simp
    | Trailers =>
      cases hg : getStream cx.state.streams sid with
      | none => simp
      | some ss => cases ss <;> simp

lemma rst_eval (cx : Ctx) (sid : Nat) (e : H2StreamError) :
    rst cx sid e =
      ⟨withStreams cx (removeStream cx.state.streams sid),
        ⟨[(⟨.rstStream, 4, sid⟩, be32 (errorCodeRepr e))], [], []⟩, .ok⟩ := by
  simp [rst, write_frame, be32, u32Max, dataTransition]

lemma finishHeaders_skip (dec : List Nat → DecodeOutcome) (cx : Ctx)
    (hot : HeadersOrTrailers) (es : Bool) (sid : Nat)
    (frags : List (List Nat)) (rest : Chan) :
    finishHeaders dec cx hot .Skip es sid frags rest =
      ⟨cx, Effects.empty, rest, .ok⟩ := rfl

lemma finishHeaders_state (dec : List Nat → DecodeOutcome) (cx : Ctx)
    (hot : HeadersOrTrailers) (mode : ReadHeadersMode) (es : Bool) (sid : Nat)
    (frags : List (List Nat)) (rest : Chan) :
    (finishHeaders dec cx hot mode es sid frags rest).cx.state.lastStreamId =
      cx.state.lastStreamId ∧
    (finishHeaders dec cx hot mode es sid frags rest).cx.state.selfSettings =
      cx.state.selfSettings ∧
    (finishHeaders dec cx hot mode es sid frags rest).cx.state.streams.length ≤
      cx.state.streams.length + 1 := by
  unfold finishHeaders
  cases mode with
  | Skip => exact ⟨rfl, rfl, Nat.le_succ _⟩
  | Process =>
    cases dec frags.flatten with
    | compressionError => exact ⟨rfl, rfl, Nat.le_succ _⟩
    | malformed => exact ⟨rfl, rfl, Nat.le_succ _⟩
    | ok =>
      cases hot with
      | Headers =>
        exact ⟨rfl, rfl,
          length_insertStream_le cx.state.streams sid
            (if es then .HalfClosedRemote (cx.nextChan + 1)
             else .Open cx.nextChan (cx.nextChan + 1))⟩
      | Trailers =>
        cases hg : getStream cx.state.streams sid with
        | none => exact ⟨rfl, rfl, Nat.le_succ _⟩
        | some ss =>
          cases ss with
          | Open incoming outgoing =>
            exact ⟨rfl, rfl,
              le_trans (length_removeStream_le cx.state.streams sid) (Nat.le_succ _)⟩
          | HalfClosedRemote o => exact ⟨rfl, rfl, Nat.le_succ _⟩
          | HalfClosedLocal i => exact ⟨rfl, rfl, Nat.le_succ _⟩
          | Transition => exact ⟨rfl, rfl, Nat.le_succ _⟩

lemma finishHeaders_headers_ok (dec : List Nat → DecodeOutcome) (cx : Ctx)
    (es : Bool) (sid : Nat) (frags : List (List Nat)) (rest : Chan) :
    (finishHeaders dec cx .Headers .Process es sid frags rest).cx.state.streams =
      insertStream cx.state.streams sid
        (if es then .HalfClosedRemote (cx.nextChan + 1)
         else .Open cx.nextChan (cx.nextChan + 1)) ∨
    (finishHeaders dec cx .Headers .Process es sid frags rest).cx = cx := by
  unfold finishHeaders
  cases dec frags.flatten with
  | compressionError => right; rfl
  | malformed => right; rfl
  | ok => left; simp [withStreams]

lemma read_headers_cases (dec : List Nat → DecodeOutcome) (cx : Ctx)
    (hot : HeadersOrTrailers) (mode : ReadHeadersMode) (es eh : Bool)
    (sid : Nat) (payload : List Nat) (rx : Chan) :
    (∃ frags rest, read_headers dec cx hot mode es eh sid payload rx =
        finishHeaders dec cx hot mode es sid frags rest) ∨
    (∃ e, read_headers dec cx hot mode es eh sid payload rx =
        ⟨cx, Effects.empty, [], .connErr e⟩) := by
  unfold read_headers
  cases eh with
  | true => exact Or.inl ⟨[payload], rx, rfl⟩
  | false =>
    cases hc : collectContinuations sid [payload] rx with
    | error e => exact Or.inr ⟨e, by simp⟩
    | ok pr => exact Or.inl ⟨pr.1, pr.2, by simp⟩

lemma read_headers_skip (dec : List Nat → DecodeOutcome) (cx : Ctx)
    (hot : HeadersOrTrailers) (es eh : Bool) (sid : Nat) (payload : List Nat)
    (rx : Chan) :
    (read_headers dec cx hot .Skip es eh sid payload rx).cx = cx ∧
    (read_headers dec cx hot .Skip es eh sid payload rx).effs = Effects.empty := by
  rcases read_headers_cases dec cx hot .Skip es eh sid payload rx with
    ⟨frags, rest, hh⟩ | ⟨e, hh⟩
  · rw [hh, finishHeaders_skip]
    exact ⟨rfl, rfl⟩
  · rw [hh]
    exact ⟨rfl, rfl⟩

lemma read_headers_state (dec : List Nat → DecodeOutcome) (cx : Ctx)
    (hot : HeadersOrTrailers) (mode : ReadHeadersMode) (es eh : Bool)
    (sid : Nat) (payload : List Nat) (rx : Chan) :
    (read_headers dec cx hot mode es eh sid payload rx).cx.state.lastStreamId =
      cx.state.lastStreamId ∧
    (read_headers dec cx hot mode es eh sid payload rx).cx.state.selfSettings =
      cx.state.selfSettings ∧
    (read_headers dec cx hot mode es eh sid payload rx).cx.state.streams.length ≤
      cx.state.streams.length + 1 := by
  rcases read_headers_cases dec cx hot mode es eh sid payload rx with
    ⟨frags, rest, hh⟩ | ⟨e, hh⟩
  · rw [hh]
    exact finishHeaders_state dec cx hot mode es sid frags rest
  · rw [hh]
    exact ⟨rfl, rfl, Nat.le_succ _⟩

lemma write_frame_cx (cx : Ctx) (frame : Frame) (payload : List Nat) :
    (write_frame cx frame payload).cx = dataTransition cx frame := by
  unfold write_frame
  split <;> rfl

lemma dataTransition_spec (cx : Ctx) (frame : Frame) :
    (dataTransition cx frame).state.streams.length ≤ cx.state.streams.length ∧
    (dataTransition cx frame).state.selfSettings = cx.state.selfSettings := by
  unfold dataTransition
  cases hft : frame.frameType
  case data es p =>
    cases es
    case false => exact ⟨le_refl _, rfl⟩
    case true =>
      cases hg : getStream cx.state.streams frame.streamId
      case none => exact ⟨le_refl _, rfl⟩
      case some ss =>
        cases ss
        case Open i o => exact ⟨le_of_eq (length_setStream _ _ _), rfl⟩
        all_goals exact ⟨length_removeStream_le _ _, rfl⟩
  all_goals exact ⟨le_refl _, rfl⟩

lemma finishHeaders_trailers_spec (dec : List Nat → DecodeOutcome) (cx : Ctx)
    (mode : ReadHeadersMode) (es : Bool) (sid : Nat) (frags : List (List Nat))
    (rest : Chan) :
    (finishHeaders dec cx .Trailers mode es sid frags rest).cx.state.streams.length ≤
      cx.state.streams.length ∧
    (finishHeaders dec cx .Trailers mode es sid frags rest).cx.state.selfSettings =
      cx.state.selfSettings := by
  unfold finishHeaders
  cases mode with
  | Skip => exact ⟨le_refl _, rfl⟩
  | Process =>
    cases dec frags.flatten with
    | compressionError => exact ⟨le_refl _, rfl⟩
    | malformed => exact ⟨le_refl _, rfl⟩
    | ok =>
      cases hg : getStream cx.state.streams sid
      case none => exact ⟨le_refl _, rfl⟩
      case some ss =>
        cases ss
        case Open i o => exact ⟨length_removeStream_le _ _, rfl⟩
        all_goals exact ⟨le_refl _, rfl⟩

lemma read_headers_trailers_spec (dec : List Nat → DecodeOutcome) (cx : Ctx)
    (mode : ReadHeadersMode) (es eh : Bool) (sid : Nat) (payload : List Nat)
    (rx : Chan) :
    (read_headers dec cx .Trailers mode es eh sid payload rx).cx.state.streams.length ≤
      cx.state.streams.length ∧
    (read_headers dec cx .Trailers mode es eh sid payload rx).cx.state.selfSettings =
      cx.state.selfSettings := by
  rcases read_headers_cases dec cx .Trailers mode es eh sid payload rx with
    ⟨frags, rest, hh⟩ | ⟨e, hh⟩
  · rw [hh]
    exact finishHeaders_trailers_spec dec cx mode es sid frags rest
  · rw [hh]
    exact ⟨le_refl _, rfl⟩

lemma processHeadersInner_preserves (dec : List Nat → DecodeOutcome) (cx : Ctx)
    (es eh : Bool) (sid : Nat) (payload : List Nat) (rx : Chan)
    (hinv : cx.state.streams.length ≤ cx.state.selfSettings.maxConcurrentStreams) :
    (processHeadersInner dec cx es eh sid payload rx).cx.state.streams.length ≤
      cx.state.selfSettings.maxConcurrentStreams ∧
    (processHeadersInner dec cx es eh sid payload rx).cx.state.selfSettings =
      cx.state.selfSettings := by
  have hskip : ∀ cx1 : Ctx,
      ∀ hot, (read_headers dec cx1 hot .Skip es eh sid payload rx).cx = cx1 :=
    fun cx1 hot => (read_headers_skip dec cx1 hot es eh sid payload rx).1
  unfold processHeadersInner
  cases hg : getStream cx.state.streams sid
  case none =>
    dsimp only
    by_cases h0 : isServerInitiated sid = true
    · rw [if_pos h0]
      exact ⟨hinv, rfl⟩
    · rw [if_neg (by simpa using h0)]
      by_cases hlt : sid < cx.state.lastStreamId
      · rw [if_pos hlt]
        exact ⟨hinv, rfl⟩
      · rw [if_neg hlt]
        by_cases heq : sid = cx.state.lastStreamId
        · rw [if_pos heq]
          exact ⟨hinv, rfl⟩
        · rw [if_neg heq]
          by_cases hcap : cx.state.streams.length + 1 >
              cx.state.selfSettings.maxConcurrentStreams
          · rw [if_pos hcap, rst_eval]
            rcases hr : read_headers dec
                (withStreams cx (removeStream cx.state.streams sid))
                .Headers .Skip es eh sid payload rx with ⟨cx2, eff2, rx2, t2⟩
            have hcx2 : cx2 =
                withStreams cx (removeStream cx.state.streams sid) := by
              have := hskip (withStreams cx (removeStream cx.state.streams sid)) .Headers
              rw [hr] at this
              exact this
            simp only [hr]
            rw [hcx2]
            exact ⟨le_trans (length_removeStream_le _ _) hinv, rfl⟩
          · rw [if_neg hcap]
            have hst := read_headers_state dec (withLastStreamId cx sid) .Headers
              .Process es eh sid payload rx
            refine ⟨?_, hst.2.1⟩
            have := hst.2.2
            have hlast : (withLastStreamId cx sid).state.streams.length =
                cx.state.streams.length := rfl
            omega
  case some ss =>
    cases ss
    case Open i o =>
      dsimp only
      by_cases hes : es = true
      · rw [if_pos hes]
        have h := read_headers_trailers_spec dec cx .Process es eh sid payload rx
        exact ⟨le_trans h.1 hinv, h.2⟩
      · rw [if_neg hes, rst_eval]
        rcases hr : read_headers dec
            (withStreams cx (removeStream cx.state.streams sid))
            .Trailers .Skip es eh sid payload rx with ⟨cx2, eff2, rx2, t2⟩
        have hcx2 : cx2 = withStreams cx (removeStream cx.state.streams sid) := by
          have := hskip (withStreams cx (removeStream cx.state.streams sid)) .Trailers
          rw [hr] at this
          exact this
        simp only [hr]
        rw [hcx2]
        exact ⟨le_trans (length_removeStream_le _ _) hinv, rfl⟩
    case HalfClosedLocal i =>
      dsimp only
      by_cases hes : es = true
      · rw [if_pos hes]
        have h := read_headers_trailers_spec dec cx .Process es eh sid payload rx
        exact ⟨le_trans h.1 hinv, h.2⟩
      · rw [if_neg hes, rst_eval]
        rcases hr : read_headers dec
            (withStreams cx (removeStream cx.state.streams sid))
            .Trailers .Skip es eh sid payload rx with ⟨cx2, eff2, rx2, t2⟩
        have hcx2 : cx2 = withStreams cx (removeStream cx.state.streams sid) := by
          have := hskip (withStreams cx (removeStream cx.state.streams sid)) .Trailers
          rw [hr] at this
          exact this
        simp only [hr]
        rw [hcx2]
        exact ⟨le_trans (length_removeStream_le _ _) hinv, rfl⟩
    case HalfClosedRemote o => exact ⟨hinv, rfl⟩
    case Transition => exact ⟨hinv, rfl⟩

lemma process_frame_preserves (dec : List Nat → DecodeOutcome) (cx : Ctx)
    (frame : Frame) (payload : List Nat) (rx : Chan)
    (hinv : cx.state.streams.length ≤ cx.state.selfSettings.maxConcurrentStreams) :
    (process_frame dec cx frame payload rx).cx.state.streams.length ≤
      cx.state.selfSettings.maxConcurrentStreams ∧
    (process_frame dec cx frame payload rx).cx.state.selfSettings =
      cx.state.selfSettings := by
  unfold process_frame
  cases hft : frame.frameType
  case data es p =>
    dsimp only
    unfold processData
    cases hg : getStream cx.state.streams frame.streamId
    case none => exact ⟨hinv, rfl⟩
    case some ss =>
      cases ss
      case Open i o =>
        dsimp only
        by_cases hes : es = true
        · rw [if_pos hes]
          exact ⟨by simpa [withStreams, length_setStream] using hinv, rfl⟩
        · rw [if_neg hes]
          exact ⟨hinv, rfl⟩
      case HalfClosedLocal i =>
        dsimp only
        by_cases hes : es = true
        · rw [if_pos hes]
          exact ⟨le_trans (length_removeStream_le _ _) hinv, rfl⟩
        · rw [if_neg hes]
          exact ⟨hinv, rfl⟩
      case HalfClosedRemote o =>
        dsimp only
        rw [rst_eval]
        exact ⟨le_trans (length_removeStream_le _ _) hinv, rfl⟩
      case Transition => exact ⟨hinv, rfl⟩
  case headers es eh p pf =>
    dsimp only
    unfold processHeaders
    cases pf
    case false =>
      exact processHeadersInner_preserves dec cx es eh frame.streamId payload rx hinv
    case true =>
      cases hp : parsePrioritySpec payload
      case none => exact ⟨hinv, rfl⟩
      case some pr =>
        obtain ⟨restp, ps⟩ := pr
        dsimp only
        by_cases hd : ps.streamDependency = frame.streamId
        · rw [if_pos hd]
          exact ⟨hinv, rfl⟩
        · rw [if_neg hd]
          exact processHeadersInner_preserves dec cx es eh frame.streamId restp rx hinv
  case priority =>
    dsimp only
    unfold processPriority
    cases hp : parsePrioritySpec payload
    case none =>
      dsimp only
      rw [rst_eval]
      exact ⟨le_trans (length_removeStream_le _ _) hinv, rfl⟩
    case some pr =>
      obtain ⟨restp, ps⟩ := pr
      dsimp only
      by_cases hd : ps.streamDependency = frame.streamId
      · rw [if_pos hd]
        exact ⟨hinv, rfl⟩
      · rw [if_neg hd]
        exact ⟨hinv, rfl⟩
  case rstStream =>
    dsimp only
    unfold processRstStream
    by_cases hl : frame.len ≠ 4
    · rw [if_pos hl, rst_eval]
      exact ⟨le_trans (length_removeStream_le _ _) hinv, rfl⟩
    · rw [if_neg hl]
      cases hg : getStream cx.state.streams frame.streamId with
      | none => exact ⟨hinv, rfl⟩
      | some ss =>
        cases ss with
        | Open i o => exact ⟨le_trans (length_removeStream_le _ _) hinv, rfl⟩
        | HalfClosedLocal i =>
          exact ⟨le_trans (length_removeStream_le _ _) hinv, rfl⟩
        | HalfClosedRemote o =>
          exact ⟨le_trans (length_removeStream_le _ _) hinv, rfl⟩
        | Transition => exact ⟨hinv, rfl⟩
  case settings ack =>
    dsimp only
    unfold processSettings
    by_cases hs : frame.streamId ≠ 0
    · rw [if_pos hs]
      exact ⟨hinv, rfl⟩
    · rw [if_neg hs]
      cases ack with
      | true =>
        dsimp only
        by_cases hp : payload ≠ []
        · rw [if_pos hp]
          exact ⟨hinv, rfl⟩
        · rw [if_neg hp]
          exact ⟨hinv, rfl⟩
      | false =>
        dsimp only
        cases hps : parseSettings payload Settings.default with
        | none => exact ⟨hinv, rfl⟩
        | some settings =>
          dsimp only
          have hw : write_frame
              { cx with
                  state := { cx.state with peerSettings := settings }
                  encoderTableSize := settings.headerTableSize }
              { frameType := .settings true, len := 0, streamId := 0 } [] =
              ⟨{ cx with
                  state := { cx.state with peerSettings := settings }
                  encoderTableSize := settings.headerTableSize },
                ⟨[({ frameType := .settings true, len := 0, streamId := 0 }, [])],
                  [], []⟩, .ok⟩ := by
            simp [write_frame, u32Max, dataTransition]
          rw [hw]
          exact ⟨hinv, rfl⟩
  case pushPromise => exact ⟨hinv, rfl⟩
  case ping ack =>
    dsimp only
    unfold processPing
    by_cases h1 : frame.streamId ≠ 0
    · rw [if_pos h1]
      exact ⟨hinv, rfl⟩
    · rw [if_neg h1]
      by_cases h2 : frame.len ≠ 8
      · rw [if_pos h2]
        exact ⟨hinv, rfl⟩
      · rw [if_neg h2]
        cases ack with
        | true => exact ⟨hinv, rfl⟩
        | false =>
          dsimp only
          have hw := write_frame_cx cx
            { frameType := .ping true, len := payload.length, streamId := 0 } payload
          rcases hww : write_frame cx
              { frameType := .ping true, len := payload.length, streamId := 0 }
              payload with ⟨cx1, eff1, t⟩
          rw [hww] at hw
          simp only [hww]
          have hdt : dataTransition cx
              { frameType := .ping true, len := payload.length, streamId := 0 } = cx :=
            rfl
          rw [show cx1 = cx from hw.trans hdt]
          exact ⟨hinv, rfl⟩
  case goAway =>
    dsimp only
    by_cases h1 : frame.streamId ≠ 0
    · rw [if_pos h1]
      exact ⟨hinv, rfl⟩
    · rw [if_neg h1]
      exact ⟨hinv, rfl⟩
  case windowUpdate =>
    dsimp only
    unfold processWindowUpdate
    by_cases h1 : payload.length ≠ 4
    · rw [if_pos h1]
      exact ⟨hinv, rfl⟩
    · rw [if_neg h1]
      by_cases h2 : (reservedAndU31 payload).2 = 0
      · rw [if_pos h2]
        exact ⟨hinv, rfl⟩
      · rw [if_neg h2]
        by_cases h3 : frame.streamId = 0
        · rw [if_pos h3]
          exact ⟨hinv, rfl⟩
        · rw [if_neg h3]
          cases getStream cx.state.streams frame.streamId with
          | none => exact ⟨hinv, rfl⟩
          | some ss => exact ⟨hinv, rfl⟩
  case continuation eh2 => exact ⟨hinv, rfl⟩
  case unknown ty => exact ⟨hinv, rfl⟩

lemma processSettings_streams (cx : Ctx) (frame : Frame) (ack : Bool)
    (payload : List Nat) (rx : Chan) :
    (processSettings cx frame ack payload rx).cx.state.streams =
      cx.state.streams := by
  unfold processSettings
  by_cases hs : frame.streamId ≠ 0
  · rw [if_pos hs]
  · rw [if_neg hs]
    cases ack with
    | true =>
      dsimp only
      by_cases hp : payload ≠ []
      · rw [if_pos hp]
        rfl
      · rw [if_neg hp]
        rfl
    | false =>
      dsimp only
      cases hps : parseSettings payload Settings.default with
      | none => rfl
      | some settings =>
        dsimp only
        rcases hww : write_frame
            { cx with
                state := { cx.state with peerSettings := settings }
                encoderTableSize := settings.headerTableSize }
            { frameType := .settings true, len := 0, streamId := 0 } []
          with ⟨cx1, eff1, t⟩
        have hw := write_frame_cx
          { cx with
              state := { cx.state with peerSettings := settings }
              encoderTableSize := settings.headerTableSize }
          { frameType := .settings true, len := 0, streamId := 0 } []
        rw [hww] at hw
        simp only [hww]
        rw [show cx1 = { cx with
            state := { cx.state with peerSettings := settings }
            encoderTableSize := settings.headerTableSize } from hw]
        rfl

lemma processPing_streams (cx : Ctx) (frame : Frame) (ack : Bool)
    (payload : List Nat) (rx : Chan) :
    (processPing cx frame ack payload rx).cx.state.streams = cx.state.streams := by
  unfold processPing
  by_cases h1 : frame.streamId ≠ 0
  · rw [if_pos h1]
  · rw [if_neg h1]
    by_cases h2 : frame.len ≠ 8
    · rw [if_pos h2]
    · rw [if_neg h2]
      cases ack with
      | true => rfl
      | false =>
        dsimp only
        rcases hww : write_frame cx
            { frameType := .ping true, len := payload.length, streamId := 0 }
            payload with ⟨cx1, eff1, t⟩
        have hw := write_frame_cx cx
          { frameType := .ping true, len := payload.length, streamId := 0 } payload
        rw [hww] at hw
        simp only [hww]
        rw [show cx1 = cx from hw]
        rfl

lemma processWindowUpdate_streams (cx : Ctx) (frame : Frame)
    (payload : List Nat) (rx : Chan) :
    (processWindowUpdate cx frame payload rx).cx.state.streams =
      cx.state.streams := by
  unfold processWindowUpdate
  by_cases h1 : payload.length ≠ 4
  · rw [if_pos h1]
  · rw [if_neg h1]
    by_cases h2 : (reservedAndU31 payload).2 = 0
    · rw [if_pos h2]
    · rw [if_neg h2]
      by_cases h3 : frame.streamId = 0
      · rw [if_pos h3]
      · rw [if_neg h3]
        cases getStream cx.state.streams frame.streamId with
        | none => rfl
        | some ss => rfl

lemma processPriority_spec (cx : Ctx) (frame : Frame) (payload : List Nat)
    (rx : Chan) :
    (processPriority cx frame payload rx).cx.state.streams = cx.state.streams ∨
    (∃ w ∈ (processPriority cx frame payload rx).effs.written,
      w.1.frameType = .rstStream ∧ w.1.streamId = frame.streamId) := by
  unfold processPriority
  cases hp : parsePrioritySpec payload with
  | none =>
    right
    rw [rst_eval]
    exact ⟨(⟨.rstStream, 4, frame.streamId⟩,
      be32 (errorCodeRepr (.InvalidPriorityFrameSize frame.len))), by simp, rfl, rfl⟩
  | some pr =>
    obtain ⟨restp, ps⟩ := pr
    dsimp only
    by_cases hd : ps.streamDependency = frame.streamId
    · rw [if_pos hd]
      exact Or.inl rfl
    · rw [if_neg hd]
      exact Or.inl rfl

lemma read_headers_trailers_streams (dec : List Nat → DecodeOutcome) (cx : Ctx)
    (mode : ReadHeadersMode) (es eh : Bool) (sid : Nat) (payload : List Nat)
    (rx : Chan) :
    (read_headers dec cx .Trailers mode es eh sid payload rx).cx.state.streams =
      cx.state.streams ∨
    ((read_headers dec cx .Trailers mode es eh sid payload rx).cx.state.streams =
        removeStream cx.state.streams sid ∧
      ∃ inc out, getStream cx.state.streams sid = some (.Open inc out)) := by
  have key : ∀ (frags : List (List Nat)) (rest : Chan),
      (finishHeaders dec cx .Trailers mode es sid frags rest).cx.state.streams =
        cx.state.streams ∨
      ((finishHeaders dec cx .Trailers mode es sid frags rest).cx.state.streams =
          removeStream cx.state.streams sid ∧
        ∃ inc out, getStream cx.state.streams sid = some (.Open inc out)) := by
    intro frags rest
    unfold finishHeaders
    cases mode with
    | Skip => exact Or.inl rfl
    | Process =>
      cases dec frags.flatten with
      | compressionError => exact Or.inl rfl
      | malformed => exact Or.inl rfl
      | ok =>
        cases hg : getStream cx.state.streams sid with
        | none => exact Or.inl rfl
        | some ss =>
          cases ss with
          | Open i o => exact Or.inr ⟨rfl, i, o, rfl⟩
          | HalfClosedRemote o => exact Or.inl rfl
          | HalfClosedLocal i => exact Or.inl rfl
          | Transition => exact Or.inl rfl
  rcases read_headers_cases dec cx .Trailers mode es eh sid payload rx with
    ⟨frags, rest, hh⟩ | ⟨e, hh⟩
  · rw [hh]
    exact key frags rest
  · rw [hh]
    exact Or.inl rfl

lemma processHeadersInner_removal (dec : List Nat → DecodeOutcome) (cx : Ctx)
    (es eh : Bool) (sid : Nat) (payload : List Nat) (rx : Chan) (ss : StreamState)
    (hsome : getStream cx.state.streams sid = some ss)
    (hrem : getStream
        (processHeadersInner dec cx es eh sid payload rx).cx.state.streams sid =
      none) :
    (∃ w ∈ (processHeadersInner dec cx es eh sid payload rx).effs.written,
      w.1.frameType = .rstStream ∧ w.1.streamId = sid) ∨
    (es = true ∧ ∃ inc out, ss = .Open inc out) := by
  revert hrem
  unfold processHeadersInner
  rw [hsome]
  cases ss with
  | Open i o =>
    intro hrem
    by_cases hes : es = true
    · exact Or.inr ⟨hes, i, o, rfl⟩
    · rw [if_neg hes]
      dsimp only
      rw [rst_eval]
      dsimp only
      left
      exact ⟨(⟨.rstStream, 4, sid⟩, be32 (errorCodeRepr .TrailersNotEndStream)),
        by simp [Effects.append], rfl, rfl⟩
  | HalfClosedLocal i =>
    intro hrem
    by_cases hes : es = true
    · exfalso
      dsimp only at hrem
      rw [if_pos hes] at hrem
      rcases read_headers_trailers_streams dec cx .Process es eh sid payload rx with
        hca | ⟨hcb, inc2, out2, hgo⟩
      · rw [hca, hsome] at hrem
        simp at hrem
      · rw [hsome] at hgo
        simp at hgo
    · rw [if_neg hes]
      dsimp only
      rw [rst_eval]
      dsimp only
      left
      exact ⟨(⟨.rstStream, 4, sid⟩, be32 (errorCodeRepr .TrailersNotEndStream)),
        by simp [Effects.append], rfl, rfl⟩
  | HalfClosedRemote o =>
    intro hrem
    dsimp only at hrem
    rw [hsome] at hrem
    simp at hrem
  | Transition =>
    intro hrem
    dsimp only at hrem
    rw [hsome] at hrem
    simp at hrem

lemma process_frame_removal (dec : List Nat → DecodeOutcome) (cx : Ctx)
    (frame : Frame) (payload : List Nat) (rx : Chan) (ss : StreamState)
    (hsome : getStream cx.state.streams frame.streamId = some ss)
    (hrem : getStream (process_frame dec cx frame payload rx).cx.state.streams
        frame.streamId = none) :
    (∃ w ∈ (process_frame dec cx frame payload rx).effs.written,
      w.1.frameType = .rstStream ∧ w.1.streamId = frame.streamId) ∨
    frame.frameType = .rstStream ∨
    (∃ pd inc, frame.frameType = .data true pd ∧ ss = .HalfClosedLocal inc) ∨
    (∃ eh pd pf inc out, frame.frameType = .headers true eh pd pf ∧
      ss = .Open inc out) := by
  cases hft : frame.frameType
  case data es p =>
    cases ss with
    | Open i o =>
      exfalso
      cases es with
      | true =>
        have he : (process_frame dec cx frame payload rx).cx.state.streams =
            setStream cx.state.streams frame.streamId (.HalfClosedRemote o) := by
          simp [process_frame, hft, processData, hsome, withStreams]
        rw [he, getStream_setStream, hsome] at hrem
        simp at hrem
      | false =>
        have he : (process_frame dec cx frame payload rx).cx.state.streams =
            cx.state.streams := by
          simp [process_frame, hft, processData, hsome]
        rw [he, hsome] at hrem
        simp at hrem
    | HalfClosedLocal i =>
      cases es with
      | true => exact Or.inr (Or.inr (Or.inl ⟨p, i, rfl, rfl⟩))
      | false =>
        exfalso
        have he : (process_frame dec cx frame payload rx).cx.state.streams =
            cx.state.streams := by
          simp [process_frame, hft, processData, hsome]
        rw [he, hsome] at hrem
        simp at hrem
    | HalfClosedRemote o =>
      left
      have he : (process_frame dec cx frame payload rx).effs.written =
          [(⟨.rstStream, 4, frame.streamId⟩, be32 (errorCodeRepr .StreamClosed))] := by
        simp [process_frame, hft, processData, hsome, rst_eval]
      rw [he]
      exact ⟨(⟨.rstStream, 4, frame.streamId⟩, be32 (errorCodeRepr .StreamClosed)),
        by simp, rfl, rfl⟩
    | Transition =>
      exfalso
      have he : (process_frame dec cx frame payload rx).cx.state.streams =
          cx.state.streams := by
        simp [process_frame, hft, processData, hsome]
      rw [he, hsome] at hrem
      simp at hrem
  case headers es eh p pf =>
    cases pf with
    | false =>
      have hred : process_frame dec cx frame payload rx =
          processHeadersInner dec cx es eh frame.streamId payload rx := by
        simp [process_frame, hft, processHeaders]
      rw [hred] at hrem
      rcases processHeadersInner_removal dec cx es eh frame.streamId payload rx ss
          hsome hrem with hL | ⟨hes, inc, out, hss⟩
      · left
        rw [hred]
        exact hL
      · right; right; right
        exact ⟨eh, p, false, inc, out, by rw [hes], hss⟩
    | true =>
      cases hp : parsePrioritySpec payload with
      | none =>
        exfalso
        have he : (process_frame dec cx frame payload rx).cx.state.streams =
            cx.state.streams := by
          simp [process_frame, hft, processHeaders, hp]
        rw [he, hsome] at hrem
        simp at hrem
      | some pr =>
        obtain ⟨restp, ps⟩ := pr
        by_cases hd : ps.streamDependency = frame.streamId
        · exfalso
          have he : (process_frame dec cx frame payload rx).cx.state.streams =
              cx.state.streams := by
            simp [process_frame, hft, processHeaders, hp, hd]
          rw [he, hsome] at hrem
          simp at hrem
        · have hred : process_frame dec cx frame payload rx =
              processHeadersInner dec cx es eh frame.streamId restp rx := by
            simp [process_frame, hft, processHeaders, hp, hd]
          rw [hred] at hrem
          rcases processHeadersInner_removal dec cx es eh frame.streamId restp rx ss
              hsome hrem with hL | ⟨hes, inc, out, hss⟩
          · left
            rw [hred]
            exact hL
          · right; right; right
            exact ⟨eh, p, true, inc, out, by rw [hes], hss⟩
  case priority =>
    have hred : process_frame dec cx frame payload rx =
        processPriority cx frame payload rx := by
      simp [process_frame, hft]
    rcases processPriority_spec cx frame payload rx with hpe | hpw
    · exfalso
      rw [hred, hpe, hsome] at hrem
      simp at hrem
    · left
      rw [hred]
      exact hpw
  case rstStream => exact Or.inr (Or.inl rfl)
  case settings ack =>
    exfalso
    have hred : process_frame dec cx frame payload rx =
        processSettings cx frame ack payload rx := by
      simp [process_frame, hft]
    rw [hred, processSettings_streams, hsome] at hrem
    simp at hrem
  case pushPromise =>
    exfalso
    have he : (process_frame dec cx frame payload rx).cx.state.streams =
        cx.state.streams := by
      simp [process_frame, hft]
    rw [he, hsome] at hrem
    simp at hrem
  case ping ack =>
    exfalso
    have hred : process_frame dec cx frame payload rx =
        processPing cx frame ack payload rx := by
      simp [process_frame, hft]
    rw [hred, processPing_streams, hsome] at hrem
    simp at hrem
  case goAway =>
    exfalso
    by_cases h1 : frame.streamId ≠ 0
    · have he : (process_frame dec cx frame payload rx).cx.state.streams =
          cx.state.streams := by
        simp [process_frame, hft, h1]
      rw [he, hsome] at hrem
      simp at hrem
    · have he : (process_frame dec cx frame payload rx).cx.state.streams =
          cx.state.streams := by
        simp [process_frame, hft, h1]
      rw [he, hsome] at hrem
      simp at hrem
  case windowUpdate =>
    exfalso
    have hred : process_frame dec cx frame payload rx =
        processWindowUpdate cx frame payload rx := by
      simp [process_frame, hft]
    rw [hred, processWindowUpdate_streams, hsome] at hrem
    simp at hrem
  case continuation eh2 =>
    exfalso
    have he : (process_frame dec cx frame payload rx).cx.state.streams =
        cx.state.streams := by
      simp [process_frame, hft]
    rw [he, hsome] at hrem
    simp at hrem
  case unknown ty =>
    exfalso
    have he : (process_frame dec cx frame payload rx).cx.state.streams =
        cx.state.streams := by
      simp [process_frame, hft]
    rw [he, hsome] at hrem
    simp at hrem

/-- C4 counterexample: a stream in `Open` (no END_STREAM has yet been
seen in either direction) that receives trailers — a single HEADERS
frame with END_STREAM — is removed from the stream table even though no
second END_STREAM occurred and no RST_STREAM was sent or received, so
removal is not restricted to the second END_STREAM or RST_STREAM. -/
theorem c4_counterexample :
    getStream [(1, StreamState.Open 10 11)] 1 = some (.Open 10 11) ∧
    getStream (process_frame (fun _ => DecodeOutcome.ok)
        ⟨⟨Settings.default, Settings.default, [(1, .Open 10 11)], 1⟩,
          false, 4096, 16384, 20⟩
        ⟨.headers true true false false, 0, 1⟩ [] []).cx.state.streams 1 = none ∧
    (process_frame (fun _ => DecodeOutcome.ok)
        ⟨⟨Settings.default, Settings.default, [(1, .Open 10 11)], 1⟩,
          false, 4096, 16384, 20⟩
        ⟨.headers true true false false, 0, 1⟩ [] []).effs.written = [] ∧
    (process_frame (fun _ => DecodeOutcome.ok)
        ⟨⟨Settings.default, Settings.default, [(1, .Open 10 11)], 1⟩,
          false, 4096, 16384, 20⟩
        ⟨.headers true true false false, 0, 1⟩ [] []).term = .ok := by
  refine ⟨?_, ?_, ?_, ?_⟩ <;> decide

/-- C4 (amended): stream lifecycle transitions.  Writing DATA with
END_STREAM moves an `Open` stream to `HalfClosedLocal` keeping its
incoming channel and removes the entry in any other state; an inbound
DATA with END_STREAM moves an `Open` stream to `HalfClosedRemote`
keeping its outgoing state and removes a `HalfClosedLocal` entry (the
second END_STREAM); a well-sized RST_STREAM removes the entry; trailers
(HEADERS with END_STREAM) on an `Open` stream deliver the trailers and
remove the entry; and those are the only removals: the writer removes
an entry only for DATA with END_STREAM on a non-`Open` stream, and the
processor removes an entry only when it sends RST_STREAM for the
stream, receives RST_STREAM, receives DATA with END_STREAM on
`HalfClosedLocal`, or receives HEADERS with END_STREAM on `Open`. -/
theorem c4_stream_lifecycle (dec : List Nat → DecodeOutcome) (cx : Ctx)
    (frame : Frame) (payload : List Nat) (rx : Chan) :
    (∀ pd inc out, frame.frameType = .data true pd →
      getStream cx.state.streams frame.streamId = some (.Open inc out) →
      (write_frame cx frame payload).cx.state.streams =
        setStream cx.state.streams frame.streamId (.HalfClosedLocal inc)) ∧
    (∀ pd ss, frame.frameType = .data true pd →
      getStream cx.state.streams frame.streamId = some ss →
      (∀ inc out, ss ≠ .Open inc out) →
      (write_frame cx frame payload).cx.state.streams =
        removeStream cx.state.streams frame.streamId) ∧
    (∀ ss, getStream cx.state.streams frame.streamId = some ss →
      getStream (write_frame cx frame payload).cx.state.streams frame.streamId =
        none →
      ∃ pd, frame.frameType = .data true pd ∧ ∀ inc out, ss ≠ .Open inc out) ∧
    (∀ pd inc out, frame.frameType = .data true pd →
      getStream cx.state.streams frame.streamId = some (.Open inc out) →
      (process_frame dec cx frame payload rx).cx.state.streams =
        setStream cx.state.streams frame.streamId (.HalfClosedRemote out)) ∧
    (∀ pd inc, frame.frameType = .data true pd →
      getStream cx.state.streams frame.streamId = some (.HalfClosedLocal inc) →
      (process_frame dec cx frame payload rx).cx.state.streams =
        removeStream cx.state.streams frame.streamId) ∧
    (∀ ss, frame.frameType = .rstStream → frame.len = 4 →
      getStream cx.state.streams frame.streamId = some ss → ss ≠ .Transition →
      (process_frame dec cx frame payload rx).cx.state.streams =
        removeStream cx.state.streams frame.streamId) ∧
    (∀ pd inc out, frame.frameType = .headers true true pd false →
      getStream cx.state.streams frame.streamId = some (.Open inc out) →
      dec [payload].flatten = .ok →
      (process_frame dec cx frame payload rx).cx.state.streams =
        removeStream cx.state.streams frame.streamId ∧
      (inc, IncomingItem.trailers) ∈ (process_frame dec cx frame payload rx).effs.sent) ∧
    (∀ ss, getStream cx.state.streams frame.streamId = some ss →
      getStream (process_frame dec cx frame payload rx).cx.state.streams
        frame.streamId = none →
      (∃ w ∈ (process_frame dec cx frame payload rx).effs.written,
        w.1.frameType = .rstStream ∧ w.1.streamId = frame.streamId) ∨
      frame.frameType = .rstStream ∨
      (∃ pd inc, frame.frameType = .data true pd ∧ ss = .HalfClosedLocal inc) ∨
      (∃ eh pd pf inc out, frame.frameType = .headers true eh pd pf ∧
        ss = .Open inc out)) := by
  refine ⟨?_, ?_, ?_, ?_, ?_, ?_, ?_, ?_⟩
  · intro pd inc out hft hsome
    rw [write_frame_cx]
    simp [dataTransition, hft, hsome, withStreams]
  · intro pd ss hft hsome hns
    rw [write_frame_cx]
    cases ss with
    | Open i o => exact absurd rfl (hns i o)
    | HalfClosedRemote o => simp [dataTransition, hft, hsome, withStreams]
    | HalfClosedLocal i => simp [dataTransition, hft, hsome, withStreams]
    | Transition => simp [dataTransition, hft, hsome, withStreams]
  · intro ss hsome hrem
    rw [write_frame_cx] at hrem
    cases hft : frame.frameType
    case data es2 p2 =>
      cases es2 with
      | false =>
        exfalso
        have he : dataTransition cx frame = cx := by
          simp [dataTransition, hft]
        rw [he, hsome] at hrem
        simp at hrem
      | true =>
        cases ss with
        | Open i o =>
          exfalso
          have he : dataTransition cx frame =
              withStreams cx (setStream cx.state.streams frame.streamId
                (.HalfClosedLocal i)) := by
            simp [dataTransition, hft, hsome]
          rw [he] at hrem
          rw [show (withStreams cx (setStream cx.state.streams frame.streamId
              (StreamState.HalfClosedLocal i))).state.streams =
            setStream cx.state.streams frame.streamId
              (StreamState.HalfClosedLocal i) from rfl,
            getStream_setStream, hsome] at hrem
          simp at hrem
        | HalfClosedRemote o =>
          exact ⟨p2, rfl, fun inc out h => StreamState.noConfusion h⟩
        | HalfClosedLocal i =>
          exact ⟨p2, rfl, fun inc out h => StreamState.noConfusion h⟩
        | Transition =>
          exact ⟨p2, rfl, fun inc out h => StreamState.noConfusion h⟩
    all_goals
      exfalso
      have he : dataTransition cx frame = cx := by
        simp [dataTransition, hft]
      rw [he, hsome] at hrem
      simp at hrem
  · intro pd inc out hft hsome
    simp [process_frame, hft, processData, hsome, withStreams]
  · intro pd inc hft hsome
    simp [process_frame, hft, processData, hsome, withStreams]
  · intro ss hft hlen hsome hnt
    have h4 : ¬(frame.len ≠ 4) := by omega
    cases ss with
    | Open i o => simp [process_frame, hft, processRstStream, h4, hsome, withStreams]
    | HalfClosedRemote o =>
      simp [process_frame, hft, processRstStream, h4, hsome, withStreams]
    | HalfClosedLocal i =>
      simp [process_frame, hft, processRstStream, h4, hsome, withStreams]
    | Transition => exact absurd rfl hnt
  · intro pd inc out hft hsome hdec
    have hdec2 : dec payload = .ok := by simpa using hdec
    constructor
    · simp [process_frame, hft, processHeaders, processHeadersInner, hsome,
        read_headers, finishHeaders, hdec2, withStreams]
    · simp [process_frame, hft, processHeaders, processHeadersInner, hsome,
        read_headers, finishHeaders, hdec2]
  · intro ss hsome hrem
    exact process_frame_removal dec cx frame payload rx ss hsome hrem

/-- Witness for C4: inbound DATA with END_STREAM on an `Open` stream
moves it to `HalfClosedRemote` keeping the outgoing state, and a second
END_STREAM (DATA on `HalfClosedLocal`) removes the entry. -/
theorem c4_stream_lifecycle_witness :
    (process_frame (fun _ => DecodeOutcome.ok)
        ⟨⟨Settings.default, Settings.default, [(1, .Open 10 11)], 1⟩,
          false, 4096, 16384, 20⟩
        ⟨.data true false, 0, 1⟩ [] []).cx.state.streams =
      setStream [(1, .Open 10 11)] 1 (.HalfClosedRemote 11) ∧
    (process_frame (fun _ => DecodeOutcome.ok)
        ⟨⟨Settings.default, Settings.default, [(1, .HalfClosedLocal 10)], 1⟩,
          false, 4096, 16384, 20⟩
        ⟨.data true false, 0, 1⟩ [] []).cx.state.streams =
      removeStream [(1, .HalfClosedLocal 10)] 1 := by
  constructor
  · exact (c4_stream_lifecycle (fun _ => DecodeOutcome.ok)
      ⟨⟨Settings.default, Settings.default, [(1, .Open 10 11)], 1⟩,
        false, 4096, 16384, 20⟩
      ⟨.data true false, 0, 1⟩ [] []).2.2.2.1 false 10 11 rfl (by decide)
  · exact (c4_stream_lifecycle (fun _ => DecodeOutcome.ok)
      ⟨⟨Settings.default, Settings.default, [(1, .HalfClosedLocal 10)], 1⟩,
        false, 4096, 16384, 20⟩
      ⟨.data true false, 0, 1⟩ [] []).2.2.2.2.1 false 10 rfl (by decide)

/-- C3: processing any frame preserves the invariant that the stream
table has at most `self_settings.max_concurrent_streams` entries, and a
HEADERS frame whose acceptance would exceed the limit is answered with
RST_STREAM(RefusedStream), its header block is skipped (the decoder is
never invoked) and no entry is inserted into the table. -/
theorem c3_max_concurrent_streams (dec : List Nat → DecodeOutcome) (cx : Ctx)
    (frame : Frame) (payload : List Nat) (rx : Chan) :
    (cx.state.streams.length ≤ cx.state.selfSettings.maxConcurrentStreams →
      (process_frame dec cx frame payload rx).cx.state.streams.length ≤
        (process_frame dec cx frame payload rx).cx.state.selfSettings.maxConcurrentStreams) ∧
    (∀ es eh pd,
      frame.frameType = .headers es eh pd false →
      getStream cx.state.streams frame.streamId = none →
      frame.streamId % 2 = 1 →
      cx.state.lastStreamId < frame.streamId →
      cx.state.streams.length + 1 > cx.state.selfSettings.maxConcurrentStreams →
      (process_frame dec cx frame payload rx).effs.written.head? =
        some (⟨.rstStream, 4, frame.streamId⟩, be32 (errorCodeRepr .RefusedStream)) ∧
      getStream (process_frame dec cx frame payload rx).cx.state.streams
        frame.streamId = none ∧
      (process_frame dec cx frame payload rx).effs.decoded = []) := by
  constructor
  · intro hinv
    have h := process_frame_preserves dec cx frame payload rx hinv
    rw [h.2]
    exact h.1
  · intro es eh pd hft hnone hodd hgt hcap
    have hred : process_frame dec cx frame payload rx =
        processHeadersInner dec cx es eh frame.streamId payload rx := by
      simp [process_frame, hft, processHeaders]
    rw [hred]
    unfold processHeadersInner
    rw [hnone]
    dsimp only
    rw [if_neg (show ¬(isServerInitiated frame.streamId = true) by
          simp only [isServerInitiated, decide_eq_true_eq]
          omega),
      if_neg (show ¬(frame.streamId < cx.state.lastStreamId) by omega),
      if_neg (show ¬(frame.streamId = cx.state.lastStreamId) by omega),
      if_pos hcap, rst_eval]
    rcases hr : read_headers dec
        (withStreams cx (removeStream cx.state.streams frame.streamId))
        .Headers .Skip es eh frame.streamId payload rx with ⟨cx2, eff2, rx2, t2⟩
    have hsk := read_headers_skip dec
      (withStreams cx (removeStream cx.state.streams frame.streamId))
      .Headers es eh frame.streamId payload rx
    rw [hr] at hsk
    obtain ⟨hcx2, heff2⟩ := hsk
    dsimp only at hcx2 heff2
    simp only [hr]
    refine ⟨?_, ?_, ?_⟩
    · simp [Effects.append, heff2, Effects.empty]
    · rw [hcx2]
      exact getStream_removeStream _ _
    · simp [Effects.append, heff2, Effects.empty]

/-- Witness for C3: a server limited to zero concurrent streams refuses
stream 1, and the invariant is preserved for a PING frame. -/
theorem c3_max_concurrent_streams_witness :
    (process_frame (fun _ => DecodeOutcome.ok)
        ⟨⟨⟨4096, true, 0, 65535, 16384, 0⟩, Settings.default, [], 0⟩,
          false, 4096, 16384, 0⟩
        ⟨.headers true true false false, 0, 1⟩ [] []).effs.written.head? =
      some (⟨.rstStream, 4, 1⟩, be32 (errorCodeRepr .RefusedStream)) ∧
    getStream (process_frame (fun _ => DecodeOutcome.ok)
        ⟨⟨⟨4096, true, 0, 65535, 16384, 0⟩, Settings.default, [], 0⟩,
          false, 4096, 16384, 0⟩
        ⟨.headers true true false false, 0, 1⟩ [] []).cx.state.streams 1 = none ∧
    (process_frame (fun _ => DecodeOutcome.ok)
        ⟨⟨⟨4096, true, 0, 65535, 16384, 0⟩, Settings.default, [], 0⟩,
          false, 4096, 16384, 0⟩
        ⟨.headers true true false false, 0, 1⟩ [] []).effs.decoded = [] ∧
    (process_frame (fun _ => DecodeOutcome.ok)
        ⟨⟨⟨4096, true, 0, 65535, 16384, 0⟩, Settings.default, [], 0⟩,
          false, 4096, 16384, 0⟩
        ⟨.ping false, 8, 0⟩ [1, 2, 3, 4, 5, 6, 7, 8] []).cx.state.streams.length ≤
      (process_frame (fun _ => DecodeOutcome.ok)
        ⟨⟨⟨4096, true, 0, 65535, 16384, 0⟩, Settings.default, [], 0⟩,
          false, 4096, 16384, 0⟩
        ⟨.ping false, 8, 0⟩ [1, 2, 3, 4, 5, 6, 7, 8] []).cx.state.selfSettings.maxConcurrentStreams := by
  obtain ⟨h1, h2, h3⟩ :=
    (c3_max_concurrent_streams (fun _ => DecodeOutcome.ok)
      ⟨⟨⟨4096, true, 0, 65535, 16384, 0⟩, Settings.default, [], 0⟩,
        false, 4096, 16384, 0⟩
      ⟨.headers true true false false, 0, 1⟩ [] []).2 true true false rfl rfl rfl
      (by decide) (by decide)
  refine ⟨h1, h2, h3, ?_⟩
  exact (c3_max_concurrent_streams (fun _ => DecodeOutcome.ok)
    ⟨⟨⟨4096, true, 0, 65535, 16384, 0⟩, Settings.default, [], 0⟩,
      false, 4096, 16384, 0⟩
    ⟨.ping false, 8, 0⟩ [1, 2, 3, 4, 5, 6, 7, 8] []).1 (by decide)

/-- C1: a HEADERS frame whose stream id has no entry in the stream
table is accepted only when the id is odd and strictly greater than
`last_stream_id`: an even id is the connection error
`ClientSidShouldBeOdd`, an id equal to `last_stream_id` is the
connection error `StreamClosed`, a smaller id is the connection error
`ClientSidShouldBeNumericallyIncreasing`, and whenever an entry for the
id exists afterwards (the stream was accepted), the id is odd, exceeds
the previous `last_stream_id`, and `last_stream_id` now equals it. -/
theorem c1_new_stream_acceptance (dec : List Nat → DecodeOutcome) (cx : Ctx)
    (frame : Frame) (es eh pd : Bool) (payload : List Nat) (rx : Chan)
    (hft : frame.frameType = .headers es eh pd false)
    (hnone : getStream cx.state.streams frame.streamId = none) :
    (frame.streamId % 2 = 0 →
      process_frame dec cx frame payload rx =
        ⟨cx, Effects.empty, rx, .connErr .ClientSidShouldBeOdd⟩) ∧
    (frame.streamId % 2 = 1 → frame.streamId < cx.state.lastStreamId →
      process_frame dec cx frame payload rx =
        ⟨cx, Effects.empty, rx,
          .connErr (.ClientSidShouldBeNumericallyIncreasing frame.streamId
            cx.state.lastStreamId)⟩) ∧
    (frame.streamId % 2 = 1 → frame.streamId = cx.state.lastStreamId →
      process_frame dec cx frame payload rx =
        ⟨cx, Effects.empty, rx, .connErr (.StreamClosed frame.streamId)⟩) ∧
    (∀ ss,
      getStream (process_frame dec cx frame payload rx).cx.state.streams
          frame.streamId = some ss →
      frame.streamId % 2 = 1 ∧ cx.state.lastStreamId < frame.streamId ∧
      (process_frame dec cx frame payload rx).cx.state.lastStreamId =
        frame.streamId) := by
  have hred : process_frame dec cx frame payload rx =
      processHeadersInner dec cx es eh frame.streamId payload rx := by
    simp [process_frame, hft, processHeaders]
  refine ⟨?_, ?_, ?_, ?_⟩
  · intro h
    rw [hred]
    simp [processHeadersInner, hnone, isServerInitiated, h]
  · intro h hlt
    have h0 : ¬(frame.streamId % 2 = 0) := by omega
    rw [hred]
    simp [processHeadersInner, hnone, isServerInitiated, h0, hlt]
  · intro h heq
    have h0 : ¬(frame.streamId % 2 = 0) := by omega
    have hnlt : ¬(frame.streamId < cx.state.lastStreamId) := by omega
    rw [hred]
    unfold processHeadersInner
    rw [hnone]
    simp only [isServerInitiated]
    rw [if_neg (by simpa using h0), if_neg hnlt, if_pos heq]
  · intro ss hss
    rw [hred] at hss
    by_cases h0 : frame.streamId % 2 = 0
    · have he : processHeadersInner dec cx es eh frame.streamId payload rx =
          ⟨cx, Effects.empty, rx, .connErr .ClientSidShouldBeOdd⟩ := by
        simp [processHeadersInner, hnone, isServerInitiated, h0]
      rw [he] at hss
      rw [show (⟨cx, Effects.empty, rx,
          .connErr H2ConnectionError.ClientSidShouldBeOdd⟩ : PRes).cx = cx from rfl,
        hnone] at hss
      cases hss
    · by_cases hlt : frame.streamId < cx.state.lastStreamId
      · have he : processHeadersInner dec cx es eh frame.streamId payload rx =
            ⟨cx, Effects.empty, rx,
              .connErr (.ClientSidShouldBeNumericallyIncreasing frame.streamId
                cx.state.lastStreamId)⟩ := by
          simp [processHeadersInner, hnone, isServerInitiated, h0, hlt]
        rw [he] at hss
        rw [show (⟨cx, Effects.empty, rx,
            .connErr (H2ConnectionError.ClientSidShouldBeNumericallyIncreasing
              frame.streamId cx.state.lastStreamId)⟩ : PRes).cx = cx from rfl,
          hnone] at hss
        cases hss
      · by_cases heq : frame.streamId = cx.state.lastStreamId
        · have he : processHeadersInner dec cx es eh frame.streamId payload rx =
              ⟨cx, Effects.empty, rx, .connErr (.StreamClosed frame.streamId)⟩ := by
            unfold processHeadersInner
            rw [hnone]
            simp only [isServerInitiated]
            rw [if_neg (by simpa using h0), if_neg hlt, if_pos heq]
          rw [he] at hss
          rw [show (⟨cx, Effects.empty, rx,
              .connErr (H2ConnectionError.StreamClosed frame.streamId)⟩ : PRes).cx = cx
              from rfl, hnone] at hss
          cases hss
        · have hgt : cx.state.lastStreamId < frame.streamId := by omega
          by_cases hcap : cx.state.streams.length + 1 >
              cx.state.selfSettings.maxConcurrentStreams
          · exfalso
            have hrst := rst_eval cx frame.streamId .RefusedStream
            rcases hr : read_headers dec
                (withStreams cx (removeStream cx.state.streams frame.streamId))
                .Headers .Skip es eh frame.streamId payload rx with ⟨cx2, eff2, rx2, t2⟩
            have hcx2 : cx2 =
                withStreams cx (removeStream cx.state.streams frame.streamId) := by
              have hsk := (read_headers_skip dec
                (withStreams cx (removeStream cx.state.streams frame.streamId))
                .Headers es eh frame.streamId payload rx).1
              rw [hr] at hsk
              exact hsk
            have hcxeq : (processHeadersInner dec cx es eh frame.streamId payload
                rx).cx = cx2 := by
              simp [processHeadersInner, hnone, isServerInitiated, h0, hlt, heq,
                hcap, hrst, hr]
            rw [hcxeq, hcx2] at hss
            rw [show (withStreams cx (removeStream cx.state.streams
                frame.streamId)).state.streams =
              removeStream cx.state.streams frame.streamId from rfl,
              getStream_removeStream] at hss
            cases hss
          · have hval : processHeadersInner dec cx es eh frame.streamId payload rx =
                read_headers dec (withLastStreamId cx frame.streamId) .Headers
                  .Process es eh frame.streamId payload rx := by
              simp [processHeadersInner, hnone, isServerInitiated, h0, hlt, heq, hcap]
            have hlast := (read_headers_state dec (withLastStreamId cx frame.streamId)
              .Headers .Process es eh frame.streamId payload rx).1
            refine ⟨by omega, hgt, ?_⟩
            rw [hred, hval, hlast]
            rfl

/-- Witness for C1: even id rejected, odd increasing id accepted with
`last_stream_id` updated. -/
theorem c1_new_stream_acceptance_witness :
    process_frame (fun _ => DecodeOutcome.ok)
        ⟨⟨Settings.default, Settings.default, [], 0⟩, false, 4096, 16384, 0⟩
        ⟨.headers false true false false, 0, 2⟩ [] [] =
      ⟨⟨⟨Settings.default, Settings.default, [], 0⟩, false, 4096, 16384, 0⟩,
        Effects.empty, [], .connErr .ClientSidShouldBeOdd⟩ ∧
    (process_frame (fun _ => DecodeOutcome.ok)
        ⟨⟨Settings.default, Settings.default, [], 0⟩, false, 4096, 16384, 0⟩
        ⟨.headers false true false false, 0, 1⟩ [] []).cx.state.lastStreamId = 1 := by
  constructor
  · exact (c1_new_stream_acceptance (fun _ => DecodeOutcome.ok)
      ⟨⟨Settings.default, Settings.default, [], 0⟩, false, 4096, 16384, 0⟩
      ⟨.headers false true false false, 0, 2⟩ false true false [] [] rfl rfl).1 rfl
  · exact ((c1_new_stream_acceptance (fun _ => DecodeOutcome.ok)
      ⟨⟨Settings.default, Settings.default, [], 0⟩, false, 4096, 16384, 0⟩
      ⟨.headers false true false false, 0, 1⟩ false true false [] [] rfl rfl).2.2.2
      (.Open 0 1) (by decide)).2.2

/-- C2: during reassembly of a HEADERS frame without END_HEADERS, the
byte sequence handed to the HPACK decoder is exactly the HEADERS payload
followed by the CONTINUATION payloads in receipt order, handed over in a
single decoder invocation, and the loop consumes exactly the
continuation run; any frame for another stream, any non-CONTINUATION
frame, and a closed channel are connection errors. -/
theorem c2_continuation_reassembly (dec : List Nat → DecodeOutcome) (cx : Ctx)
    (hot : HeadersOrTrailers) (es : Bool) (sid : Nat) (payload : List Nat)
    (conts : List (List Nat)) (rest2 : Chan) (f : Frame) (fp : List Nat) :
    (conts ≠ [] →
      (read_headers dec cx hot .Process es false sid payload
          (contRun sid conts ++ rest2)).effs.decoded = [payload ++ conts.flatten] ∧
      (read_headers dec cx hot .Process es false sid payload
          (contRun sid conts ++ rest2)).rx = rest2) ∧
    (f.streamId ≠ sid →
      (read_headers dec cx hot .Process es false sid payload ((f, fp) :: rest2)).term =
        .connErr (.ExpectedContinuationForStream sid f.streamId)) ∧
    ((∀ b, f.frameType ≠ .continuation b) → f.streamId = sid →
      (read_headers dec cx hot .Process es false sid payload ((f, fp) :: rest2)).term =
        .connErr (.ExpectedContinuationFrame sid (some f.frameType))) ∧
    ((read_headers dec cx hot .Process es false sid payload []).term =
      .connErr (.ExpectedContinuationFrame sid none)) := by
  refine ⟨?_, ?_, ?_, ?_⟩
  · intro h
    have hc := collect_contRun sid conts h [payload] rest2
    have hd := finishHeaders_decoded dec cx hot es sid (payload :: conts) rest2
    simp only [read_headers, Bool.false_eq_true, if_false, ite_false, hc,
      List.cons_append, List.nil_append] at hd ⊢
    simpa [List.flatten_cons] using hd
  · intro h
    simp [read_headers, collectContinuations, h, Ne.symm h]
  · intro hnc hsid
    have hns : ¬(sid ≠ f.streamId) := by omega
    cases hft : f.frameType
    all_goals first
      | exact absurd hft (hnc _)
      | simp [read_headers, collectContinuations, hns, hsid, hft]
  · simp [read_headers, collectContinuations]

/-- Witness for C2: one HEADERS payload, two CONTINUATION fragments. -/
theorem c2_continuation_reassembly_witness :
    (read_headers (fun _ => DecodeOutcome.ok)
        ⟨⟨Settings.default, Settings.default, [], 0⟩, false, 4096, 16384, 0⟩
        .Headers .Process false false 1 [0] (contRun 1 [[1], [2, 3]] ++ [])).effs.decoded =
      [[0, 1, 2, 3]] ∧
    (read_headers (fun _ => DecodeOutcome.ok)
        ⟨⟨Settings.default, Settings.default, [], 0⟩, false, 4096, 16384, 0⟩
        .Headers .Process false false 1 [0] []).term =
      .connErr (.ExpectedContinuationFrame 1 none) := by
  constructor
  · have h :=
      ((c2_continuation_reassembly (fun _ => DecodeOutcome.ok)
        ⟨⟨Settings.default, Settings.default, [], 0⟩, false, 4096, 16384, 0⟩
        .Headers false 1 [0] [[1], [2, 3]] [] ⟨.goAway, 0, 0⟩ []).1 (by simp)).1
    simpa using h
  · exact (c2_continuation_reassembly (fun _ => DecodeOutcome.ok)
      ⟨⟨Settings.default, Settings.default, [], 0⟩, false, 4096, 16384, 0⟩
      .Headers false 1 [0] [[1], [2, 3]] [] ⟨.goAway, 0, 0⟩ []).2.2.2

/-- C5: a DATA frame for a stream id with no entry in the stream table
fails with the connection error `StreamClosed`; a DATA frame for a
stream in `HalfClosedRemote` sends RST_STREAM(StreamClosed) for that
stream and the processor continues without failing the connection. -/
theorem c5_data_stream_closed (dec : List Nat → DecodeOutcome) (cx : Ctx)
    (frame : Frame) (endStream padded : Bool) (payload : List Nat) (rx : Chan)
    (hft : frame.frameType = .data endStream padded) :
    (getStream cx.state.streams frame.streamId = none →
      process_frame dec cx frame payload rx =
        ⟨cx, Effects.empty, rx, .connErr (.StreamClosed frame.streamId)⟩) ∧
    (∀ outgoing,
      getStream cx.state.streams frame.streamId = some (.HalfClosedRemote outgoing) →
      (process_frame dec cx frame payload rx).term = .ok ∧
      (process_frame dec cx frame payload rx).effs.written =
        [(⟨.rstStream, 4, frame.streamId⟩, be32 (errorCodeRepr .StreamClosed))]) := by
  constructor
  · intro h
    simp [process_frame, hft, processData, h]
  · intro outgoing h
    constructor <;>
      simp [process_frame, hft, processData, h, rst, write_frame, be32, errorCodeRepr,
        u32Max, dataTransition]

/-- Witness for C5 at a concrete one-stream table. -/
theorem c5_data_stream_closed_witness :
    process_frame (fun _ => DecodeOutcome.ok)
        ⟨⟨Settings.default, Settings.default, [(1, .HalfClosedRemote 11)], 1⟩,
          false, 4096, 16384, 20⟩
        ⟨.data false false, 0, 3⟩ [] [] =
      ⟨⟨⟨Settings.default, Settings.default, [(1, .HalfClosedRemote 11)], 1⟩,
          false, 4096, 16384, 20⟩,
        Effects.empty, [], .connErr (.StreamClosed 3)⟩ ∧
    (process_frame (fun _ => DecodeOutcome.ok)
        ⟨⟨Settings.default, Settings.default, [(1, .HalfClosedRemote 11)], 1⟩,
          false, 4096, 16384, 20⟩
        ⟨.data false false, 0, 1⟩ [] []).term = .ok := by
  constructor
  · exact (c5_data_stream_closed (fun _ => DecodeOutcome.ok)
      ⟨⟨Settings.default, Settings.default, [(1, .HalfClosedRemote 11)], 1⟩,
        false, 4096, 16384, 20⟩
      ⟨.data false false, 0, 3⟩ false false [] [] rfl).1 (by decide)
  · exact ((c5_data_stream_closed (fun _ => DecodeOutcome.ok)
      ⟨⟨Settings.default, Settings.default, [(1, .HalfClosedRemote 11)], 1⟩,
        false, 4096, 16384, 20⟩
      ⟨.data false false, 0, 1⟩ false false [] [] rfl).2 11 (by decide)).1

/-- C8: trailers handling evaluated at concrete inputs.  A HEADERS frame
without END_STREAM for an `Open` stream draws RST_STREAM
(TrailersNotEndStream), skips the block (no decode) and the connection
continues; with END_STREAM on an `Open` stream the trailers are
delivered on the stream's incoming channel; but with END_STREAM on a
`HalfClosedLocal` stream the code hits the `unreachable!` in
`read_headers` (modelled as `Term.abort`) instead of delivering the
trailers. -/
theorem c8_trailers_divergence :
    (process_frame (fun _ => DecodeOutcome.ok)
        ⟨⟨Settings.default, Settings.default, [(1, .Open 10 11)], 1⟩,
          false, 4096, 16384, 20⟩
        ⟨.headers false true false false, 0, 1⟩ [] []).term = .ok ∧
    (process_frame (fun _ => DecodeOutcome.ok)
        ⟨⟨Settings.default, Settings.default, [(1, .Open 10 11)], 1⟩,
          false, 4096, 16384, 20⟩
        ⟨.headers false true false false, 0, 1⟩ [] []).effs.written =
      [(⟨.rstStream, 4, 1⟩, be32 (errorCodeRepr .TrailersNotEndStream))] ∧
    (process_frame (fun _ => DecodeOutcome.ok)
        ⟨⟨Settings.default, Settings.default, [(1, .Open 10 11)], 1⟩,
          false, 4096, 16384, 20⟩
        ⟨.headers false true false false, 0, 1⟩ [] []).effs.decoded = [] ∧
    (process_frame (fun _ => DecodeOutcome.ok)
        ⟨⟨Settings.default, Settings.default, [(1, .Open 10 11)], 1⟩,
          false, 4096, 16384, 20⟩
        ⟨.headers true true false false, 0, 1⟩ [] []).effs.sent =
      [(10, .trailers)] ∧
    (process_frame (fun _ => DecodeOutcome.ok)
        ⟨⟨Settings.default, Settings.default, [(1, .Open 10 11)], 1⟩,
          false, 4096, 16384, 20⟩
        ⟨.headers true true false false, 0, 1⟩ [] []).term = .ok ∧
    (process_frame (fun _ => DecodeOutcome.ok)
        ⟨⟨Settings.default, Settings.default, [(1, .HalfClosedLocal 10)], 1⟩,
          false, 4096, 16384, 20⟩
        ⟨.headers true true false false, 0, 1⟩ [] []).term = .abort := by
  refine ⟨?_, ?_, ?_, ?_, ?_, ?_⟩ <;> decide

/-- C6: the deframer raises `FrameTooLarge` exactly on frames longer
than the shared `max_frame_size` value, evaluated at the spec's
oversized-frame scenario; but applying peer SETTINGS (here setting
SETTINGS_MAX_FRAME_SIZE to 65536) updates the peer settings without
touching the shared atomic the deframer reads, which keeps its initial
value. -/
theorem c6_max_frame_size_atomic :
    deframe_step 16384 ⟨.data false false, 16385, 1⟩ [] =
      .error (.FrameTooLarge 16385 16384) ∧
    deframe_step 16384 ⟨.data false false, 16384, 1⟩ [] =
      .ok (⟨.data false false, 16384, 1⟩, []) ∧
    (process_frame (fun _ => DecodeOutcome.ok)
        ⟨⟨Settings.default, Settings.default, [], 0⟩, false, 4096, 16384, 0⟩
        ⟨.settings false, 6, 0⟩ [0, 5, 0, 1, 0, 0] []).cx.state.peerSettings.maxFrameSize =
      65536 ∧
    (process_frame (fun _ => DecodeOutcome.ok)
        ⟨⟨Settings.default, Settings.default, [], 0⟩, false, 4096, 16384, 0⟩
        ⟨.settings false, 6, 0⟩ [0, 5, 0, 1, 0, 0] []).cx.maxFrameSizeAtomic = 16384 ∧
    (process_frame (fun _ => DecodeOutcome.ok)
        ⟨⟨Settings.default, Settings.default, [], 0⟩, false, 4096, 16384, 0⟩
        ⟨.settings false, 6, 0⟩ [0, 5, 0, 1, 0, 0] []).term = .ok := by
  refine ⟨rfl, rfl, ?_, ?_, ?_⟩ <;> decide

/-- C10 (amended): the writer overwrites the caller-stored length with
the payload's byte length, so the serialized length field matches the
payload written alongside whenever the payload is shorter than 2^24
(the width of the wire length field); a payload whose length does not
fit in a `u32` fails with `FrameTooLarge` and nothing is written;
payload lengths in between are serialized modulo 2^24. -/
theorem c10_write_frame_len (cx : Ctx) (frame : Frame) (payload : List Nat) :
    (payload.length ≤ u32Max →
      (write_frame cx frame payload).term = .ok ∧
      (write_frame cx frame payload).effs.written =
        [({ frame with len := payload.length }, payload)] ∧
      (payload.length < 16777216 →
        lenField (frameHeaderBytes { frame with len := payload.length }) =
          payload.length)) ∧
    (payload.length > u32Max →
      (write_frame cx frame payload).term =
        .connErr (.FrameTooLarge (payload.length % 4294967296) u32Max) ∧
      (write_frame cx frame payload).effs.written = []) := by
  constructor <;> intro h
  · have h1 : ¬(payload.length > u32Max) := by omega
    refine ⟨by simp [write_frame, h1], by simp [write_frame, h1], ?_⟩
    intro h2
    simp only [lenField, frameHeaderBytes, be24, be32, List.cons_append,
      List.nil_append, List.getD_cons_zero, List.getD_cons_succ]
    omega
  · exact ⟨by simp [write_frame, h], by simp [write_frame, h, Effects.empty]⟩

/-- Witness for C10 at a one-byte payload. -/
theorem c10_write_frame_len_witness :
    (write_frame ⟨⟨Settings.default, Settings.default, [], 0⟩, false, 4096, 16384, 0⟩
        ⟨.data false false, 999, 3⟩ [42]).term = .ok ∧
    lenField (frameHeaderBytes ⟨.data false false, 1, 3⟩) = 1 := by
  have h :=
    (c10_write_frame_len ⟨⟨Settings.default, Settings.default, [], 0⟩, false, 4096, 16384, 0⟩
      ⟨.data false false, 999, 3⟩ [42]).1 (by norm_num [u32Max])
  exact ⟨h.1, by simpa using h.2.2 (by norm_num)⟩

/-- C10 counterexample: a 2^24-byte payload passes the `u32` length
check, but the 24-bit length field of the serialized header then reads
0, not the byte length of the payload written alongside. -/
theorem c10_counterexample :
    (write_frame ⟨⟨Settings.default, Settings.default, [], 0⟩, false, 4096, 16384, 0⟩
        ⟨.data false false, 999, 3⟩ (List.replicate 16777216 0)).term = .ok ∧
    (write_frame ⟨⟨Settings.default, Settings.default, [], 0⟩, false, 4096, 16384, 0⟩
        ⟨.data false false, 999, 3⟩ (List.replicate 16777216 0)).effs.written.map
      (fun w => lenField (frameHeaderBytes w.1)) = [0] ∧
    (List.replicate 16777216 (0 : Nat)).length = 16777216 := by
  have hlen : (List.replicate 16777216 (0 : Nat)).length = 16777216 :=
    List.length_replicate _ _
  have hle : ¬((List.replicate 16777216 (0 : Nat)).length > u32Max) := by
    rw [hlen]; norm_num [u32Max]
  refine ⟨?_, ?_, hlen⟩
  · unfold write_frame
    rw [if_neg hle]
  · unfold write_frame
    rw [if_neg hle]
    simp only [List.map_cons, List.map_nil, hlen]
    norm_num [lenField, frameHeaderBytes, be24, be32, List.getD]

end Fluke
